import Mathlib

/-!
Verification development for the schelper_server homework-import pipeline.

The definitions below are a shallow embedding of the Python sources:
`app/routers/tasks.py`, `app/routers/subjects.py`, `app/routers/import_homework.py`,
`app/worker/worker.py`, `app/worker/process_import.py` and the table
declarations of `app/models.py`.  Machine-level details kept explicit:
Python string operations are modelled character-wise, the rapidfuzz
`process.extractOne` scorer is an abstract parameter, the sha256 digest of
`make_task_hash` is modelled by its (collision-free) preimage key, and the
dynamic attribute errors of the worker path are modelled by an explicit
attribute-lookup function over a small Python value universe.
-/

namespace Schelper

/-! ## Status domain (`models.py`: TASK_STATUS_VALUES) -/

inductive TStatus
  | todo
  | in_progress
  | done
  | checked
deriving DecidableEq, Repr

/-- `TASK_STATUS_VALUES` from `app/models.py`. -/
def TASK_STATUS_VALUES : List String := ["todo", "in_progress", "done", "checked"]

/-- Conversion of a status string to the enum; `parseStatus s = none`
exactly when `s ∉ TASK_STATUS_VALUES`, which is the validation the routers
perform (`payload.status not in TASK_STATUS_VALUES` → HTTP 400). -/
def parseStatus (s : String) : Option TStatus :=
  if s = "todo" then some .todo
  else if s = "in_progress" then some .in_progress
  else if s = "done" then some .done
  else if s = "checked" then some .checked
  else none

/-! ## Rows (`models.py`: Subtask, Task) -/

/-- A row of the `subtasks` table. -/
structure SubtaskRec where
  id : Nat
  task_id : Nat
  title : String
  status : TStatus
  type : Option String
  parent_reaction : Option String
  position : Option Nat
deriving DecidableEq, Repr

/-- A row of the `tasks` table, with its subtask collection inlined
(the ORM relationship `Task.subtasks`). -/
structure TaskRec where
  id : Nat
  child_id : Nat
  subject_id : Nat
  date : String
  title : Option String
  hash : String
  status : TStatus
  subtasks : List SubtaskRec
deriving DecidableEq, Repr

/-- The persistent store of the tasks domain: the `tasks` table (with the
inlined `subtasks` rows) plus the autoincrement counters of the two tables. -/
structure Store where
  tasks : List TaskRec
  nextTaskId : Nat
  nextSubId : Nat
deriving DecidableEq, Repr

/-- An authenticated user, as far as the task routers read it. -/
structure UserRec where
  id : Nat
  role : String
deriving DecidableEq, Repr

/-! ## Status Aggregator (`app/routers/tasks.py`, `_compute_task_status`) -/

/-- `_compute_task_status` from `app/routers/tasks.py`.  The Python builds
the set of subtask statuses; set equality / inclusion / intersection tests
over a nonempty list are the `all` / `any` tests used here. -/
def _compute_task_status (subtasks : List SubtaskRec) : TStatus :=
  if subtasks.isEmpty then .todo
  else
    let statuses := subtasks.map (fun s => s.status)
    if statuses.all (fun s => s == .checked) then .checked
    else if statuses.all (fun s => s == .done || s == .checked) then .done
    else if statuses.any (fun s => s == .in_progress || s == .done) then .in_progress
    else .todo

/-- The Status Aggregator exactly as the specification words it (the claim
side of the refinement): empty → todo; all checked → checked; all in
{done, checked} → done; any in {in_progress, done} → in_progress;
otherwise todo. -/
def statusAggregatorClaim (statuses : List TStatus) : TStatus :=
  if statuses.isEmpty then .todo
  else if statuses.all (fun s => s == .checked) then .checked
  else if statuses.all (fun s => s == .done || s == .checked) then .done
  else if statuses.any (fun s => s == .in_progress || s == .done) then .in_progress
  else .todo

/-! ## String helpers shared by the normalizer and classifiers -/

/-- Python `str.lower` restricted to the alphabets that occur in the
repository (ASCII and Cyrillic, including Ё). -/
def lowerChar (c : Char) : Char :=
  if 'A' ≤ c ∧ c ≤ 'Z' then Char.ofNat (c.toNat + 32)
  else if 0x410 ≤ c.toNat ∧ c.toNat ≤ 0x42F then Char.ofNat (c.toNat + 32)
  else if c.toNat = 0x401 then Char.ofNat 0x451
  else c

/-- Python `str.lower` over a whole string. -/
def pyLower (s : String) : String :=
  String.mk (s.data.map lowerChar)

/-- Python `str.strip`: drop leading and trailing whitespace. -/
def pyStrip (s : String) : String :=
  String.mk (((s.data.dropWhile Char.isWhitespace).reverse.dropWhile Char.isWhitespace).reverse)

/-- Python `str.rstrip`: drop trailing whitespace. -/
def pyRStrip (s : String) : String :=
  String.mk ((s.data.reverse.dropWhile Char.isWhitespace).reverse)

/-- Python's `needle in hay` substring test. -/
def strContains (hay needle : String) : Bool :=
  (List.range (hay.data.length + 1)).any
    (fun i => needle.data.isPrefixOf (hay.data.drop i))

/-- A word character for `re.sub(r"[^\w\s]", "", name)`: ASCII
alphanumerics, the underscore, and the Cyrillic block used by the
subject dictionary. -/
def isWordChar (c : Char) : Bool :=
  c.isAlphanum || c = '_' || (0x400 ≤ c.toNat && c.toNat ≤ 0x4FF)

/-- `re.sub(r"[^\w\s]", "", s)`: drop everything that is neither a word
character nor whitespace. -/
def stripPunct (s : String) : String :=
  String.mk (s.data.filter (fun c => isWordChar c || c.isWhitespace))

/-! ## Category Classifier (`process_import.py`, `detect_category`) -/

/-- `CATEGORIES` from `app/worker/process_import.py`, in declaration
order (Python dicts iterate in insertion order). -/
def CATEGORIES : List (String × List String) :=
  [("exercise", ["пример", "упр", "задача", "решить", "номер", "#", "№", "выполнить", "написать"]),
   ("theory", ["выучить", "повторить", "прочитать", "пересказ", "учить"]),
   ("dictation", ["диктант", "словарь"]),
   ("map", ["карта", "атлас", "контурная карта"]),
   ("drawing", ["чертеж", "рисунок"]),
   ("reminder", ["принести", "взять с собой"]),
   ("file", ["см файл", "выполнить задание в файле", "файл"])]

/-- The keyword → category association `all_keywords` built in
`detect_category` (all keywords are pairwise distinct, so the dict
comprehension and this list agree). -/
def allKeywords : List (String × String) :=
  CATEGORIES.flatMap (fun c => c.2.map (fun kw => (kw, c.1)))

/-- A fuzzy matcher abstracting rapidfuzz `process.extractOne`:
given the query and the candidate list it returns the best candidate and
its score.  rapidfuzz guarantees the returned candidate is drawn from the
candidate list; theorems that rely on the fuzzy branch carry that contract
as a hypothesis. -/
def FuzzyMatcher := String → List String → String × Nat

/-- `detect_category` from `app/worker/process_import.py`.  The final
`"other"` in the score branch is the (unreachable, by the rapidfuzz
contract) fallback for a best-match string that is not among the
candidates, where Python would raise `KeyError`. -/
def detect_category (fz : FuzzyMatcher) (text : String) (threshold : Nat) : String :=
  let t := pyStrip (pyLower text)
  match CATEGORIES.find? (fun c => c.2.any (fun kw => strContains t kw)) with
  | some c => c.1
  | none =>
      let m := fz t (allKeywords.map (fun q => q.1))
      if threshold ≤ m.2 then
        match allKeywords.find? (fun q => q.1 == m.1) with
        | some q => q.2
        | none => "other"
      else "other"

/-- The classifier exactly as the specification words it (claim side):
scan the categories in fixed declaration order and return the first one
with a keyword occurring as a substring of the lowercased text; otherwise
fuzzy-match against the union of all keywords and, at or above the
threshold, return that keyword's category; otherwise `other`. -/
def firstMatchingCategory (t : String) : List (String × List String) → Option String
  | [] => none
  | c :: rest =>
      if c.2.any (fun kw => strContains t kw) then some c.1
      else firstMatchingCategory t rest

/-- Claim-side classifier (see `firstMatchingCategory`). -/
def classifierClaim (fz : FuzzyMatcher) (text : String) (threshold : Nat) : String :=
  let t := pyStrip (pyLower text)
  match firstMatchingCategory t CATEGORIES with
  | some cat => cat
  | none =>
      let m := fz t (allKeywords.map (fun q => q.1))
      if threshold ≤ m.2 then
        match allKeywords.find? (fun q => q.1 == m.1) with
        | some q => q.2
        | none => "other"
      else "other"

/-- A fuzzy matcher that never reaches the threshold (score 0),
used for concrete evaluations of the keyword branch. -/
def fzFloor : FuzzyMatcher := fun _ ks => (ks.headD "", 0)

/-! ## Errors raised by the embedded code -/

inductive PyError
  | attributeError (name : String)
  | httpNotFound (msg : String)
  | httpBad (msg : String)
  | httpForbidden (msg : String)
  | valueError (msg : String)
  | integrityError
deriving DecidableEq, Repr

/-! ## Subject Resolver (`process_import.py`, `subjects.py`) -/

/-- `SUBJECTS` from `app/worker/process_import.py`, in declaration order. -/
def SUBJECTS : List (String × List String) :=
  [("математика", ["мат", "мат-ка", "матеша", "мат.", "матем"]),
   ("русский язык", ["рус", "русский", "рус. яз.", "руский"]),
   ("английский язык", ["англ", "английский", "англ. яз.", "инглиш"]),
   ("история", ["ист", "история", "истор"]),
   ("труд", ["труд", "труды", "технология"]),
   ("ИЗО", ["изоша", "изобразительное искусство"]),
   ("биология", ["био", "биол"])]

/-- `normalize_subject` from `app/worker/process_import.py`: lowercase,
strip, drop punctuation; exact dictionary hit (canonical name or synonym);
else fuzzy match against the canonical names at the threshold; else the
cleaned string unchanged.  `return match` hands back whatever the matcher
produced, exactly as the Python does. -/
def normalize_subject (fz : FuzzyMatcher) (name : String) (threshold : Nat) : String :=
  let n := stripPunct (pyStrip (pyLower name))
  match SUBJECTS.find? (fun c => n == c.1 || c.2.contains n) with
  | some c => c.1
  | none =>
      let m := fz n (SUBJECTS.map (fun c => c.1))
      if threshold ≤ m.2 then m.1 else n

/-- `get_subject_id_by_name` from `app/routers/subjects.py`: the
`subjects` table is a list of `(id, name)` rows; `ilike` without
wildcards is a case-insensitive equality; no row → HTTP 404. -/
def get_subject_id_by_name (subjects : List (Nat × String)) (name : String) :
    Except PyError Nat :=
  let normalized := pyLower (pyStrip name)
  match subjects.find? (fun s => pyLower s.2 == normalized) with
  | some s => .ok s.1
  | none => .error (.httpNotFound name)

/-! ## Import Normalizer helpers (`process_import.py`) -/

/-- A subtask block of the extraction collaborator's output:
`{"type": ..., "detail": ...}`. -/
structure SubBlock where
  type : String
  detail : String
deriving DecidableEq, Repr

/-- A subject block of the extraction collaborator's output:
`{"name", "date"?, "task": {"description", "subtasks"}}` (flattened). -/
structure SubjectBlock where
  name : String
  date : Option String
  descr : String
  subtasks : List SubBlock
deriving DecidableEq, Repr

/-- The negation phrase list of `has_homework`. -/
def NO_HOMEWORK_PHRASES : List String :=
  ["домашнего задания нет", "нет домашнего задания", "дз нет", "домашки нет"]

/-- `has_homework` from `app/worker/process_import.py`: a block is dropped
only when it has exactly one subtask whose lowercased detail contains one
of the negation phrases. -/
def has_homework (b : SubjectBlock) : Bool :=
  if b.subtasks.length ≠ 1 then true
  else
    let text := pyLower ((b.subtasks.headD ⟨"", ""⟩).detail)
    !(NO_HOMEWORK_PHRASES.any (fun p => strContains text p))

/-- `trim_description`: truncate to 50 characters, right-strip, append an
ellipsis marker when truncation occurred. -/
def trim_description (text : String) : String :=
  if text.length ≤ 50 then text else pyRStrip (String.mk (text.data.take 50)) ++ "..."

/-- The attribute names that exist on the `datetime` CLASS as imported by
`from datetime import datetime, timedelta`.  The class has no attribute
`timedelta` — that name lives on the `datetime` MODULE, which is shadowed
by the import. -/
def datetimeClassAttrNames : List String :=
  ["utcnow", "now", "today", "strptime", "strftime", "fromisoformat",
   "combine", "date", "time", "year", "month", "day", "min", "max"]

/-- Python attribute lookup on a class modelled by its attribute table. -/
def classAttrLookup (attrs : List String) (name : String) : Except PyError Unit :=
  if attrs.contains name then .ok () else .error (.attributeError name)

/-- `_tomorrow_str` from `app/worker/process_import.py` (line 14) and
`app/routers/import_homework.py` (line 29):
`(datetime.utcnow() + datetime.timedelta(days=1)).strftime(...)`.
Evaluating `datetime.timedelta` looks up `timedelta` on the `datetime`
class and fails; `tomorrow` is the string the unreachable continuation
would have produced. -/
def _tomorrow_str (tomorrow : String) : Except PyError String := do
  classAttrLookup datetimeClassAttrNames "timedelta"
  pure tomorrow

/-! ## Task Upsert Engine (`app/routers/tasks.py`, `create_task`) -/

/-- `SubtaskCreate` of `app/schemas.py`. -/
structure SubtaskCreateP where
  title : String
  type : Option String
deriving DecidableEq, Repr

/-- `TaskCreate` of `app/schemas.py`. -/
structure TaskCreateP where
  subject_id : Nat
  date : Option String
  title : Option String
  hash : Option String
  subtasks : Option (List SubtaskCreateP)
  child_id : Option Nat
deriving DecidableEq, Repr

/-- The `{"status": ..., "task": ...}` result of `create_task`. -/
structure TaskResponseM where
  status : String
  task : TaskRec
deriving DecidableEq, Repr

/-- Python `f"{title}"` over the optional title column (`None` prints as
`"None"`). -/
def pyStrOfOptTitle : Option String → String
  | some s => s
  | none => "None"

/-- `make_task_hash`: sha256 over `f"{subject_id}:{date}:{title}"`.  The
digest is modelled by its preimage key (the idealization of a
collision-free hash). -/
def make_task_hash (subject_id : Nat) (date : String) (title : String) : String :=
  toString subject_id ++ ":" ++ date ++ ":" ++ title

/-- The child-id defaulting at the top of `create_task`. -/
def resolveChildId (u : UserRec) (pc : Option Nat) : Nat :=
  if u.role == "child" then u.id
  else match pc with
    | none => u.id
    | some c => if u.role != "admin" then u.id else c

/-- `payload.date or _today_str()`: Python `or` takes the default both for
a missing and for an empty date. -/
def effectiveDate (d : Option String) (today : String) : String :=
  match d with
  | some s => if s == "" then today else s
  | none => today

/-- The titles of a task's subtask rows. -/
def subtaskTitles (t : TaskRec) : List String :=
  t.subtasks.map (fun s => s.title)

/-- `new_titles` of the found branch of `create_task`: the incoming
titles that are not already present, in payload order (repeated new
titles are kept, as in the Python list comprehension). -/
def newSubtaskTitles (incoming : List SubtaskCreateP) (existingTitles : List String) :
    List String :=
  (incoming.filter (fun s => !(existingTitles.contains s.title))).map (fun s => s.title)

/-- The lookup filter of `create_task` step 2: same child, subject, date
and title (SQLAlchemy renders `== None` as `IS NULL`, so the optional
title compares as plain `Option` equality). -/
def taskKeyMatches (childId sid : Nat) (dateStr : String) (title : Option String)
    (t : TaskRec) : Bool :=
  t.child_id == childId && t.subject_id == sid && t.date == dateStr && t.title == title

/-- `get_task_by_hash` from `app/routers/tasks.py`. -/
def get_task_by_hash (st : Store) (childId : Nat) (h : String) : Option TaskRec :=
  st.tasks.find? (fun t => t.child_id == childId && t.hash == h)

/-- The unique constraints declared on the `tasks` table in
`app/models.py`: there are none — `hash` carries only a non-unique index
and the model has no `__table_args__`. -/
def tasksTableUniqueColumnSets : List (List String) := []

/-- Rendering of a task column for constraint comparison. -/
def taskColVal (t : TaskRec) (col : String) : String :=
  if col == "child_id" then toString t.child_id
  else if col == "hash" then t.hash
  else if col == "subject_id" then toString t.subject_id
  else if col == "date" then t.date
  else ""

/-- Whether inserting `row` violates one of the declared unique
constraints of the `tasks` table (and so would raise `IntegrityError`). -/
def violatesTaskUnique (existing : List TaskRec) (row : TaskRec) : Bool :=
  tasksTableUniqueColumnSets.any
    (fun cols => existing.any (fun t => cols.all (fun c => taskColVal t c == taskColVal row c)))

/-- The `type` of the payload subtask whose title is `ti`
(`next((s for s in incoming if s.title == title), None)` then
`getattr(st_obj, "type", None)`). -/
def lookupIncomingType (incoming : List SubtaskCreateP) (ti : String) : Option String :=
  (incoming.find? (fun s => s.title == ti)).bind (fun s => s.type)

/-- `max((s.position or 0) for s in subs)` over a nonempty list, else 0. -/
def maxPosition (subs : List SubtaskRec) : Nat :=
  if subs.isEmpty then 0
  else (subs.map (fun s => s.position.getD 0)).foldl max 0

/-- The subtask rows appended by the found branch of `create_task`: the
net-new titles in payload order, positions continuing the current
maximum, status `todo`, the type looked up from the payload. -/
def mergeAppended (st : Store) (p : TaskCreateP) (existing : TaskRec) : List SubtaskRec :=
  (newSubtaskTitles (p.subtasks.getD []) (subtaskTitles existing)).enum.map (fun q =>
    SubtaskRec.mk (st.nextSubId + q.1) existing.id q.2 .todo
      (lookupIncomingType (p.subtasks.getD []) q.2) none
      (some (maxPosition existing.subtasks + 1 + q.1)))

/-- The found task after the append-commit and the status-recompute-commit. -/
def mergedTask (st : Store) (p : TaskCreateP) (existing : TaskRec) : TaskRec :=
  { existing with
    subtasks := existing.subtasks ++ mergeAppended st p existing,
    status := _compute_task_status (existing.subtasks ++ mergeAppended st p existing) }

/-- The found branch of `create_task` (step 3 of the upsert): append the
net-new subtask titles after the current maximum position, then recompute
and persist the task status.  The source performs the append-commit
followed by the status-recompute-commit; the two row updates are composed
into one map over the table. -/
def mergeIntoExisting (st : Store) (p : TaskCreateP) (existing : TaskRec) :
    Except PyError (Store × TaskResponseM) :=
  if (newSubtaskTitles (p.subtasks.getD []) (subtaskTitles existing)).isEmpty then
    .ok (st, ⟨"duplicate", existing⟩)
  else
    .ok ({ st with
           tasks := st.tasks.map (fun t =>
             if t.id == existing.id then mergedTask st p existing else t),
           nextSubId := st.nextSubId + (mergeAppended st p existing).length },
         ⟨"updated", mergedTask st p existing⟩)

/-- The subtask rows of a freshly inserted task: payload order, positions
1..n, status `todo`. -/
def insertSubs (st : Store) (p : TaskCreateP) : List SubtaskRec :=
  (p.subtasks.getD []).enum.map (fun q =>
    SubtaskRec.mk (st.nextSubId + q.1) st.nextTaskId q.2.title .todo q.2.type
      none (some (q.1 + 1)))

/-- The new task row built by the insert branch (status `todo`, computed
hash). -/
def insertedTask (st : Store) (childId : Nat) (p : TaskCreateP) (dateStr : String) : TaskRec :=
  TaskRec.mk st.nextTaskId childId p.subject_id dateStr p.title
    (make_task_hash p.subject_id dateStr (pyStrOfOptTitle p.title)) .todo (insertSubs st p)

/-- The inserted row after the post-commit status recompute (performed
only when subtasks exist). -/
def insertedWithStatus (st : Store) (childId : Nat) (p : TaskCreateP) (dateStr : String) :
    TaskRec :=
  if (insertSubs st p).isEmpty then insertedTask st childId p dateStr
  else { insertedTask st childId p dateStr with
         status := _compute_task_status (insertSubs st p) }

/-- The insert branch of `create_task` (step 4 of the upsert): build the
new row with positions 1..n, commit it — catching `IntegrityError`
against the declared unique constraints of the table and re-fetching by
hash on conflict — then recompute the status when subtasks exist. -/
def insertNewTask (st : Store) (childId : Nat) (p : TaskCreateP) (dateStr : String) :
    Except PyError (Store × TaskResponseM) :=
  if violatesTaskUnique st.tasks (insertedTask st childId p dateStr) then
    match get_task_by_hash st childId
        (make_task_hash p.subject_id dateStr (pyStrOfOptTitle p.title)) with
    | some dup => .ok (st, ⟨"duplicate", dup⟩)
    | none => .error .integrityError
  else
    .ok ({ st with
           tasks := st.tasks ++ [insertedWithStatus st childId p dateStr],
           nextTaskId := st.nextTaskId + 1,
           nextSubId := st.nextSubId + (insertSubs st p).length },
         ⟨"created", insertedWithStatus st childId p dateStr⟩)

/-- `create_task` from `app/routers/tasks.py` (POST /tasks/), acting on
the store: child-id defaulting, the step-2 tuple lookup, then either the
merge branch or the insert branch. -/
def create_task (st : Store) (u : UserRec) (p : TaskCreateP) (today : String) :
    Except PyError (Store × TaskResponseM) :=
  let childId := resolveChildId u p.child_id
  let dateStr := effectiveDate p.date today
  match st.tasks.find? (taskKeyMatches childId p.subject_id dateStr p.title) with
  | some existing => mergeIntoExisting st p existing
  | none => insertNewTask st childId p dateStr

/-! ## The per-record import pipeline
(`process_import_homework` loop body; the loop of the synchronous
`/import/homework` route executes the same statements). -/

/-- The subtask payloads the pipeline builds for one subject block
(`process_import_homework` lines 119–125): the title is the block's
`detail` text, and the category is the classifier applied to the block's
`type` field. -/
def importSubtaskCreates (fz : FuzzyMatcher) (blocks : List SubBlock) :
    List SubtaskCreateP :=
  blocks.map (fun sub =>
    SubtaskCreateP.mk sub.detail (some (detect_category fz sub.type 80)))

/-- `result.get("date") or _tomorrow_str()`: the block's date when it is
present and non-empty, otherwise the raising fallback. -/
def blockDate (b : SubjectBlock) (tomorrow : String) : Except PyError String :=
  match b.date with
  | some d => if d == "" then _tomorrow_str tomorrow else .ok d
  | none => _tomorrow_str tomorrow

/-- One normalized record, processed end to end: resolve the subject,
take the block's date (the fallback `_tomorrow_str` raises), trim the
description, classify each subtask block by its `type` field, fetch the
user (`job.user` on the worker path — an `Except` so that the dynamic
failure of the worker path can surface at exactly this point), upsert. -/
def buildAndCreate (fz : FuzzyMatcher) (subjects : List (Nat × String))
    (tomorrow today : String) (getUserE : Except PyError UserRec)
    (child_id : Option Nat) (st : Store) (b : SubjectBlock) :
    Except PyError (Store × TaskResponseM) :=
  match get_subject_id_by_name subjects (normalize_subject fz b.name 70) with
  | .error e => .error e
  | .ok sid =>
      match blockDate b tomorrow with
      | .error e => .error e
      | .ok dateStr =>
          let description := trim_description b.descr
          let taskHash := make_task_hash sid dateStr description
          let subtasksP := importSubtaskCreates fz b.subtasks
          let tc : TaskCreateP :=
            ⟨sid, some dateStr, some description, some taskHash, some subtasksP, child_id⟩
          match getUserE with
          | .error e => .error e
          | .ok user => create_task st user tc today

/-- The record loop of `process_import_homework` /
`import_homework`: filter by `has_homework`, process each retained block,
collect the per-record results.  Each record commits before the next one
runs, so on an exception the store retains everything committed so far
while the collected results are lost with the raised error. -/
def processRecords (fz : FuzzyMatcher) (subjects : List (Nat × String))
    (tomorrow today : String) (getUserE : Except PyError UserRec)
    (child_id : Option Nat) : Store → List SubjectBlock →
    Store × Except PyError (List TaskResponseM)
  | st, [] => (st, .ok [])
  | st, b :: rest =>
      if !(has_homework b) then
        processRecords fz subjects tomorrow today getUserE child_id st rest
      else
        match buildAndCreate fz subjects tomorrow today getUserE child_id st b with
        | .error e => (st, .error e)
        | .ok (st', r) =>
            match processRecords fz subjects tomorrow today getUserE child_id st' rest with
            | (st'', .error e) => (st'', .error e)
            | (st'', .ok rs) => (st'', .ok (r :: rs))

/-! ## Dynamic Python values (the worker path passes a dict where an
object is expected) -/

/-- The fragment of the Python value universe the worker path touches. -/
inductive PyVal
  | vDict (entries : List (String × PyVal))
  | vObj (attrs : List (String × PyVal))
  | vStr (s : String)
  | vInt (n : Nat)
  | vNone
deriving Repr

/-- Python attribute lookup, restricted to data attributes.  An ORM object
resolves its mapped attributes; a dict stores its data under subscription
keys, not attributes, so looking an item key (such as `payload` or `user`)
up as an attribute raises `AttributeError`.  (Built-in dict methods are
not modelled: the handlers never access one by attribute on the job.) -/
def getAttr (v : PyVal) (name : String) : Except PyError PyVal :=
  match v with
  | .vObj attrs =>
      match attrs.find? (fun a => a.1 == name) with
      | some a => .ok a.2
      | none => .error (.attributeError name)
  | _ => .error (.attributeError name)

/-- Python `d[k]` / `d.get(k)` over a modelled dict; the worker only
subscripts keys its own select put in the dict, and `.get` returns `None`
for a missing key, so both are modelled with the `None` default. -/
def pyDictGet (v : PyVal) (k : String) : PyVal :=
  match v with
  | .vDict es =>
      match es.find? (fun e => e.1 == k) with
      | some e => e.2
      | none => .vNone
  | _ => .vNone

/-- A modelled value read as a string (for `job["type"]`). -/
def pyAsStr : PyVal → String
  | .vStr s => s
  | _ => ""

/-- A modelled value read as an id (for `job["id"]`). -/
def pyAsNat : PyVal → Nat
  | .vInt n => n
  | _ => 0

/-! ## Job Store & Worker Loop (`app/worker/worker.py`) -/

inductive JStatus
  | pending
  | running
  | done
  | failed
deriving DecidableEq, Repr

/-- A row of the `jobs` table. -/
structure JobRec where
  id : Nat
  user_id : Nat
  type : String
  status : JStatus
  payload : PyVal
  created_at : Nat
deriving Repr

/-- The oldest pending job (`SELECT ... WHERE status='pending'
ORDER BY created_at LIMIT 1`): the earliest-created pending row. -/
def fetchNextJobRow (jobs : List JobRec) : Option JobRec :=
  (jobs.filter (fun j => j.status == .pending)).foldl
    (fun acc j => match acc with
      | none => some j
      | some b => if j.created_at < b.created_at then some j else some b)
    none

/-- `_fetch_next_job`: the selected row is handed on as
`dict(row._mapping)` — a plain dict of the five selected columns,
not an ORM object. -/
def _fetch_next_job (jobs : List JobRec) : Option PyVal :=
  (fetchNextJobRow jobs).map (fun j =>
    .vDict [("id", .vInt j.id), ("user_id", .vInt j.user_id),
            ("type", .vStr j.type), ("status", .vStr "pending"),
            ("payload", j.payload)])

/-- The WHERE clause of `_update_status`: it tests only the job id —
there is no `status == 'pending'` condition. -/
def updateWhereMatches (j : JobRec) (jid : Nat) : Bool :=
  j.id == jid

/-- `_update_status`: `UPDATE jobs SET status=... WHERE id = :id`,
followed by a commit. -/
def _update_status (jobs : List JobRec) (jid : Nat) (stt : JStatus) : List JobRec :=
  jobs.map (fun j => if updateWhereMatches j jid then { j with status := stt } else j)

/-- The key set of `JOB_HANDLERS`. -/
def JOB_HANDLER_TYPES : List String := ["import_homework"]

/-- `process_import_homework` on the worker path: the job value is
whatever `_fetch_next_job` produced.  Statement order as in the source:
`job.payload` first, then `payload.get`, the `raw_text` check, the
extraction call, then the record loop (which reads `job.user` when it
first calls `create_task`).  The store is threaded so that commits
performed before an exception survive it. -/
def process_import_homework (fz : FuzzyMatcher) (subjects : List (Nat × String))
    (tomorrow today : String)
    (extract : String → Except PyError (List SubjectBlock))
    (st : Store) (job : PyVal) : Store × Except PyError Nat :=
  match getAttr job "payload" with
  | .error e => (st, .error e)
  | .ok payload =>
      let rawText := pyDictGet payload "text"
      let childId := match pyDictGet payload "child_id" with
        | .vInt n => some n
        | _ => none
      match rawText with
      | .vStr s =>
          if s == "" then (st, .error (.valueError "No homework content provided"))
          else
            match extract s with
            | .error e => (st, .error e)
            | .ok blocks =>
                let getUserE : Except PyError UserRec := do
                  let u ← getAttr job "user"
                  match getAttr u "id", getAttr u "role" with
                  | .ok (.vInt i), .ok (.vStr r) => pure ⟨i, r⟩
                  | _, _ => .error (.attributeError "user")
                match processRecords fz subjects tomorrow today getUserE childId st blocks with
                | (st', .error e) => (st', .error e)
                | (st', .ok rs) => (st', .ok rs.length)
      | _ => (st, .error (.valueError "No homework content provided"))

/-- `_process_job`: look the handler up by `job["type"]`; unknown type →
mark failed without dispatching; otherwise update the job to `running`
(unconditionally), dispatch, and mark `done` or `failed`.  The third
component records whether the handler was dispatched. -/
def _process_job (fz : FuzzyMatcher) (subjects : List (Nat × String))
    (tomorrow today : String)
    (extract : String → Except PyError (List SubjectBlock))
    (jobs : List JobRec) (st : Store) (job : PyVal) :
    List JobRec × Store × Bool :=
  let jid := pyAsNat (pyDictGet job "id")
  let jty := pyAsStr (pyDictGet job "type")
  if !(JOB_HANDLER_TYPES.contains jty) then
    (_update_status jobs jid .failed, st, false)
  else
    let jobs1 := _update_status jobs jid .running
    match process_import_homework fz subjects tomorrow today extract st job with
    | (st', .ok _) => (_update_status jobs1 jid .done, st', true)
    | (st', .error _) => (_update_status jobs1 jid .failed, st', true)

/-! ## Direct CRUD endpoints on tasks and subtasks
(`app/routers/tasks.py`, PATCH /tasks/{id}, POST /tasks/{id}/subtasks,
PATCH /tasks/subtasks/{id}, the start/complete/check actions and
DELETE /tasks/subtasks/{id}). -/

/-- `TaskUpdate` of `app/schemas.py`. -/
structure TaskUpdateP where
  title : Option String
  status : Option String
deriving DecidableEq, Repr

/-- `SubtaskUpdate` of `app/schemas.py`. -/
structure SubtaskUpdateP where
  title : Option String
  status : Option String
  parent_reaction : Option String
deriving DecidableEq, Repr

/-- `db.get(Task, task_id)`. -/
def findTask (st : Store) (tid : Nat) : Option TaskRec :=
  st.tasks.find? (fun t => t.id == tid)

/-- `db.get(Subtask, subtask_id)`: the subtask row, wherever it lives. -/
def findSubtaskRow (st : Store) (sid : Nat) : Option SubtaskRec :=
  (st.tasks.flatMap (fun t => t.subtasks)).find? (fun s => s.id == sid)

/-- `_ensure_access` from `app/routers/tasks.py`: admins pass; a child is
rejected on another child's task; everyone else passes. -/
def _ensure_access (u : UserRec) (t : TaskRec) : Except PyError Unit :=
  if u.role == "admin" then .ok ()
  else if u.role == "child" && t.child_id != u.id then
    .error (.httpForbidden "Not allowed")
  else .ok ()

/-- Overwrite the subtask row with the given id (the ORM mutates the one
shared row object, visible through every relationship that holds it). -/
def setSubtaskRow (st : Store) (sid : Nat) (newSub : SubtaskRec) : Store :=
  { st with
    tasks := st.tasks.map (fun t =>
      { t with subtasks := t.subtasks.map (fun s => if s.id == sid then newSub else s) }) }

/-- `task.status = _compute_task_status(task.subtasks)` followed by a
commit, for the task with the given id. -/
def recomputeTaskStatus (st : Store) (tid : Nat) : Store :=
  { st with
    tasks := st.tasks.map (fun t =>
      if t.id == tid then { t with status := _compute_task_status t.subtasks } else t) }

/-- PATCH /tasks/{task_id} (`update_task`): apply title/status from the
payload (status validated against `TASK_STATUS_VALUES`), commit; the
RESPONSE recomputes the status when subtasks exist, but that recomputation
is not persisted — the stored row keeps the payload's status. -/
def update_task (st : Store) (u : UserRec) (task_id : Nat) (p : TaskUpdateP) :
    Except PyError (Store × TaskRec) :=
  match findTask st task_id with
  | none => .error (.httpNotFound "Task not found")
  | some task =>
      match _ensure_access u task with
      | .error e => .error e
      | .ok _ =>
          let task1 := match p.title with
            | none => task
            | some ti => { task with title := some ti }
          let task2E : Except PyError TaskRec :=
            match p.status with
            | none => .ok task1
            | some s =>
                match parseStatus s with
                | some stv => .ok { task1 with status := stv }
                | none => .error (.httpBad "Invalid status")
          match task2E with
          | .error e => .error e
          | .ok task2 =>
              let stP : Store :=
                { st with
                  tasks := st.tasks.map (fun t => if t.id == task_id then task2 else t) }
              let resp := if task2.subtasks.isEmpty then task2
                          else { task2 with status := _compute_task_status task2.subtasks }
              .ok (stP, resp)

/-- POST /tasks/{task_id}/subtasks (`create_subtask`): append a `todo`
subtask at the next position and commit.  No status recomputation
happens on this endpoint. -/
def create_subtask (st : Store) (u : UserRec) (task_id : Nat) (p : SubtaskCreateP) :
    Except PyError (Store × SubtaskRec) :=
  match findTask st task_id with
  | none => .error (.httpNotFound "Task not found")
  | some task =>
      match _ensure_access u task with
      | .error e => .error e
      | .ok _ =>
          let position := if task.subtasks.isEmpty then 1 else maxPosition task.subtasks + 1
          let sub := SubtaskRec.mk st.nextSubId task.id p.title .todo none none (some position)
          let stP : Store :=
            { st with
              tasks := st.tasks.map (fun t =>
                if t.id == task_id then { t with subtasks := t.subtasks ++ [sub] } else t),
              nextSubId := st.nextSubId + 1 }
          .ok (stP, sub)

/-- PATCH /tasks/subtasks/{subtask_id} (`update_subtask`): apply the
payload to the subtask row, commit, then recompute and persist the parent
task's status. -/
def update_subtask (st : Store) (u : UserRec) (subtask_id : Nat) (p : SubtaskUpdateP) :
    Except PyError (Store × SubtaskRec) :=
  match findSubtaskRow st subtask_id with
  | none => .error (.httpNotFound "Subtask not found")
  | some sub =>
      match findTask st sub.task_id with
      | none => .error (.attributeError "child_id")
      | some task =>
          match _ensure_access u task with
          | .error e => .error e
          | .ok _ =>
              let sub1 := match p.title with
                | none => sub
                | some ti => { sub with title := ti }
              let sub2E : Except PyError SubtaskRec :=
                match p.status with
                | none => .ok sub1
                | some s =>
                    match parseStatus s with
                    | some stv => .ok { sub1 with status := stv }
                    | none => .error (.httpBad "Invalid status")
              match sub2E with
              | .error e => .error e
              | .ok sub2 =>
                  let sub3 := match p.parent_reaction with
                    | none => sub2
                    | some r => { sub2 with parent_reaction := some r }
                  let st1 := setSubtaskRow st subtask_id sub3
                  .ok (recomputeTaskStatus st1 task.id, sub3)

/-- POST /tasks/subtasks/{subtask_id}/start (`start_subtask`): move a
`todo` subtask to `in_progress`, then recompute and persist the parent
task's status. -/
def start_subtask (st : Store) (u : UserRec) (subtask_id : Nat) :
    Except PyError (Store × SubtaskRec) :=
  match findSubtaskRow st subtask_id with
  | none => .error (.httpNotFound "Subtask not found")
  | some sub =>
      match findTask st sub.task_id with
      | none => .error (.attributeError "child_id")
      | some task =>
          match _ensure_access u task with
          | .error e => .error e
          | .ok _ =>
              let sub1 := if sub.status == .todo then { sub with status := .in_progress } else sub
              let st1 := setSubtaskRow st subtask_id sub1
              .ok (recomputeTaskStatus st1 task.id, sub1)

/-- POST /tasks/subtasks/{subtask_id}/complete (`complete_subtask`):
set the subtask `done`, then recompute and persist the parent task's
status. -/
def complete_subtask (st : Store) (u : UserRec) (subtask_id : Nat) :
    Except PyError (Store × SubtaskRec) :=
  match findSubtaskRow st subtask_id with
  | none => .error (.httpNotFound "Subtask not found")
  | some sub =>
      match findTask st sub.task_id with
      | none => .error (.attributeError "child_id")
      | some task =>
          match _ensure_access u task with
          | .error e => .error e
          | .ok _ =>
              let sub1 := { sub with status := TStatus.done }
              let st1 := setSubtaskRow st subtask_id sub1
              .ok (recomputeTaskStatus st1 task.id, sub1)

/-- POST /tasks/subtasks/{subtask_id}/check (`check_subtask`):
set the subtask `checked`, then recompute and persist the parent task's
status. -/
def check_subtask (st : Store) (u : UserRec) (subtask_id : Nat) :
    Except PyError (Store × SubtaskRec) :=
  match findSubtaskRow st subtask_id with
  | none => .error (.httpNotFound "Subtask not found")
  | some sub =>
      match findTask st sub.task_id with
      | none => .error (.attributeError "child_id")
      | some task =>
          match _ensure_access u task with
          | .error e => .error e
          | .ok _ =>
              let sub1 := { sub with status := TStatus.checked }
              let st1 := setSubtaskRow st subtask_id sub1
              .ok (recomputeTaskStatus st1 task.id, sub1)

/-- DELETE /tasks/subtasks/{subtask_id} (`delete_subtask`): remove the
row and commit.  No status recomputation happens on this endpoint. -/
def delete_subtask (st : Store) (u : UserRec) (subtask_id : Nat) :
    Except PyError (Store × String) :=
  match findSubtaskRow st subtask_id with
  | none => .ok (st, "not_found")
  | some sub =>
      match findTask st sub.task_id with
      | none => .error (.attributeError "child_id")
      | some task =>
          match _ensure_access u task with
          | .error e => .error e
          | .ok _ =>
              let st1 : Store :=
                { st with
                  tasks := st.tasks.map (fun t =>
                    { t with subtasks := t.subtasks.filter (fun s => !(s.id == subtask_id)) }) }
              .ok (st1, "deleted")

/-! ## Observation helpers used by the theorems -/

/-- The outcome string of an upsert result (`"error"` for an exception). -/
def upsertOutcome (r : Except PyError (Store × TaskResponseM)) : String :=
  match r with
  | .ok (_, x) => x.status
  | .error _ => "error"

/-- The task of an upsert result (a zeroed row for an exception). -/
def upsertTask (r : Except PyError (Store × TaskResponseM)) : TaskRec :=
  match r with
  | .ok (_, x) => x.task
  | .error _ => ⟨0, 0, 0, "", none, "", .todo, []⟩

/-- The store of an upsert result (`fallback` for an exception). -/
def upsertStore (r : Except PyError (Store × TaskResponseM)) (fallback : Store) : Store :=
  match r with
  | .ok (s, _) => s
  | .error _ => fallback

/-- The store a record-loop run left behind. -/
def runStore (r : Store × Except PyError (List TaskResponseM)) : Store := r.1

/-- Whether a record-loop run finished without an exception. -/
def runOk (r : Store × Except PyError (List TaskResponseM)) : Bool :=
  match r.2 with
  | .ok _ => true
  | .error _ => false

/-- The outcome strings of a record-loop run. -/
def runOutcomes (r : Store × Except PyError (List TaskResponseM)) : List String :=
  match r.2 with
  | .ok rs => rs.map (fun x => x.status)
  | .error _ => []

/-- Every task with the given id has its persisted status equal to the
Status Aggregator of its subtasks. -/
def statusMatchesAggregator (st : Store) (tid : Nat) : Bool :=
  st.tasks.all (fun t => !(t.id == tid) || t.status == _compute_task_status t.subtasks)

/-- The id/status projection of the whole tasks table. -/
def taskStatuses (st : Store) : List (Nat × TStatus) :=
  st.tasks.map (fun t => (t.id, t.status))

/-- Well-formedness the endpoints maintain: task ids are pairwise
distinct and below the autoincrement counter. -/
def storeWF (st : Store) : Prop :=
  (st.tasks.map (fun t => t.id)).Nodup ∧ ∀ t ∈ st.tasks, t.id < st.nextTaskId

/-- The number of tasks matching a step-2 lookup key. -/
def countKey (st : Store) (c s : Nat) (d : String) (ti : Option String) : Nat :=
  (st.tasks.filter (taskKeyMatches c s d ti)).length

/-- At most one task per step-2 lookup key. -/
def keyUnique (st : Store) : Prop :=
  ∀ c s d ti, countKey st c s d ti ≤ 1

/-- A subject block already has its task in the store: the subject
resolves, the block carries a usable date, the step-2 lookup finds a
task, and every incoming subtask title is already among that task's
subtask titles. -/
def blockSettled (fz : FuzzyMatcher) (subjT : List (Nat × String)) (u : UserRec)
    (cid : Option Nat) (st : Store) (b : SubjectBlock) : Prop :=
  ∃ sid d t,
    get_subject_id_by_name subjT (normalize_subject fz b.name 70) = .ok sid ∧
    b.date = some d ∧ (d == "") = false ∧
    st.tasks.find? (taskKeyMatches (resolveChildId u cid) sid d
      (some (trim_description b.descr))) = some t ∧
    ∀ sub ∈ b.subtasks, sub.detail ∈ subtaskTitles t

/-- Store growth, as the upsert produces it: any task found by a step-2
key is still found, with the same id and at least its old subtask
titles. -/
def storeGrows (st st' : Store) : Prop :=
  ∀ c s d ti t, st.tasks.find? (taskKeyMatches c s d ti) = some t →
    ∃ t', st'.tasks.find? (taskKeyMatches c s d ti) = some t' ∧ t'.id = t.id ∧
      ∀ x ∈ subtaskTitles t, x ∈ subtaskTitles t'

/-! ## Concrete fixtures -/

def exAdmin : UserRec := ⟨9, "admin"⟩

def exSubChecked : SubtaskRec := ⟨1, 1, "a", .checked, none, none, some 1⟩

def exTaskChecked : TaskRec :=
  ⟨1, 3, 1, "2025-10-01", some "d", "1:2025-10-01:d", .checked, [exSubChecked]⟩

def exStore : Store := ⟨[exTaskChecked], 2, 2⟩

def emptyStore : Store := ⟨[], 1, 1⟩

def exSubjects : List (Nat × String) := [(1, "математика")]

def blockPhys : SubjectBlock :=
  ⟨"физика", some "2025-10-01", "d1", [⟨"t", "решить №1"⟩]⟩

def blockMath : SubjectBlock :=
  ⟨"математика", some "2025-10-01", "d2", [⟨"t", "решить №2"⟩]⟩

def mathSub1 : SubtaskRec := ⟨1, 1, "решить №2", .todo, some "other", none, some 1⟩

def mathTask1 : TaskRec :=
  ⟨1, 3, 1, "2025-10-01", some "d2", "1:2025-10-01:d2", .todo, [mathSub1]⟩

def mathStore1 : Store := ⟨[mathTask1], 2, 2⟩

def exPayload : PyVal := .vDict [("text", .vStr "дз"), ("child_id", .vInt 3)]

def exJobs : List JobRec := [⟨1, 7, "import_homework", .pending, exPayload, 0⟩]

def exExtract : String → Except PyError (List SubjectBlock) := fun _ => .ok [blockMath]

def exPayloadTC : TaskCreateP :=
  ⟨1, some "2025-10-01", some "d", none, some [⟨"s1", none⟩], some 3⟩

def c6Sub : SubtaskRec := ⟨1, 1, "s1", .todo, none, none, some 1⟩

def c6Task1 : TaskRec :=
  ⟨1, 3, 1, "2025-10-01", some "d", "1:2025-10-01:d", .todo, [c6Sub]⟩

def c6Store1 : Store := ⟨[c6Task1], 2, 2⟩

def c6Sub2 : SubtaskRec := ⟨2, 2, "s1", .todo, none, none, some 1⟩

def c6Task2 : TaskRec :=
  ⟨2, 3, 1, "2025-10-01", some "d", "1:2025-10-01:d", .todo, [c6Sub2]⟩

def c6Store2 : Store := ⟨[c6Task1, c6Task2], 3, 3⟩

def c2Sub2 : SubtaskRec := ⟨2, 1, "extra", .todo, none, none, some 2⟩
def c2ResultStore : Store := ⟨[{ exTaskChecked with subtasks := [exSubChecked, c2Sub2] }], 2, 3⟩

def blockNoDate : SubjectBlock := ⟨"математика", none, "d3", [⟨"t", "решить №3"⟩]⟩

def c2DoneSub : SubtaskRec := ⟨1, 1, "a", .done, none, none, some 1⟩

def c2WitnessStore : Store :=
  ⟨[{ exTaskChecked with subtasks := [c2DoneSub], status := .done }], 2, 2⟩

def c5Payload : TaskCreateP :=
  ⟨1, some "2025-10-01", some "d", none, some [⟨"a", none⟩, ⟨"b", some "theory"⟩], some 3⟩

/-! ## Theorems for the claims -/


/-- Claim C3 (confirmed): the Status Aggregator `_compute_task_status` is a
pure function of the subtask statuses and satisfies exactly the claimed
cascade — empty → todo, all checked → checked, all in {done, checked} →
done, otherwise any in {in_progress, done} → in_progress, otherwise todo
(stated as extensional equality with `statusAggregatorClaim`, the
aggregator written from the claim's words) — together with the six
literal cases of the claim. -/
theorem C3_status_aggregator :
    (∀ subtasks : List SubtaskRec,
      _compute_task_status subtasks = statusAggregatorClaim (subtasks.map (fun s => s.status)))
  ∧ _compute_task_status [] = .todo
  ∧ _compute_task_status [⟨1, 1, "a", .todo, none, none, some 1⟩] = .todo
  ∧ _compute_task_status [⟨1, 1, "a", .in_progress, none, none, some 1⟩] = .in_progress
  ∧ _compute_task_status [⟨1, 1, "a", .done, none, none, some 1⟩,
      ⟨2, 1, "b", .checked, none, none, some 2⟩] = .done
  ∧ _compute_task_status [⟨1, 1, "a", .checked, none, none, some 1⟩,
      ⟨2, 1, "b", .checked, none, none, some 2⟩] = .checked
  ∧ _compute_task_status [⟨1, 1, "a", .todo, none, none, some 1⟩,
      ⟨2, 1, "b", .done, none, none, some 2⟩] = .in_progress := by
  refine ⟨fun subtasks => ?_, by decide, by decide, by decide, by decide, by decide, by decide⟩
  cases subtasks with
  | nil => rfl
  | cons a l => rfl

lemma firstMatchingCategory_eq_find? (t : String) (l : List (String × List String)) :
    firstMatchingCategory t l
      = (l.find? (fun c => c.2.any (fun kw => strContains t kw))).map (fun c => c.1) := by
  induction l with
  | nil => rfl
  | cons c rest ih =>
      by_cases h : (c.2.any (fun kw => strContains t kw)) = true
      · simp [firstMatchingCategory, List.find?_cons, h]
      · simp only [Bool.not_eq_true] at h
        simp [firstMatchingCategory, List.find?_cons, h, ih]

/-- Claim C8, amended (the classifier itself matches the claimed cascade,
but the pipeline applies it to each block's `type` field, not to the
detail text): the category the import pipeline assigns to a subtask block
is the classifier applied to the block's `type` field; `detect_category`
equals the spec-worded cascade `classifierClaim` (first category in fixed
declaration order with a keyword substring of the lowercased text, else
the fuzzy match at threshold 80, else `other`); and the literal cases
hold: «№12» → exercise, «выучить стихотворение» → theory, a text with no
keyword hit and fuzzy score below threshold → other. -/
theorem C8_amended :
    (∀ fz blocks, (importSubtaskCreates fz blocks).map (fun s => s.type)
        = blocks.map (fun b => some (detect_category fz b.type 80)))
  ∧ (∀ fz text threshold, detect_category fz text threshold = classifierClaim fz text threshold)
  ∧ detect_category fzFloor "№12" 80 = "exercise"
  ∧ detect_category fzFloor "выучить стихотворение" 80 = "theory"
  ∧ detect_category fzFloor "qqq" 80 = "other" := by
  refine ⟨fun fz blocks => ?_, fun fz text threshold => ?_, by decide, by decide, by decide⟩
  · simp [importSubtaskCreates, List.map_map]
  · unfold detect_category classifierClaim
    simp only [firstMatchingCategory_eq_find?]
    cases h : CATEGORIES.find? (fun c => c.2.any (fun kw => strContains (pyStrip (pyLower text)) kw)) with
    | none => simp [h]
    | some c => simp [h]

/-- Claim C8 counterexample: for the block with type-hint «номер» and
detail «выучить стих», the pipeline assigns category `exercise`
(classifier on the type-hint) while the classifier applied to the
detail text yields `theory` — so the assigned category does not equal
the classifier applied to the block's detail text. -/
theorem C8_counterexample :
    importSubtaskCreates fzFloor [⟨"номер", "выучить стих"⟩]
        = [⟨"выучить стих", some "exercise"⟩]
  ∧ detect_category fzFloor "выучить стих" 80 = "theory"
  ∧ ("exercise" : String) ≠ "theory" := by
  refine ⟨by decide, by decide, by decide⟩

/-- Claim C2 counterexample: starting from a store satisfying the
invariant (one task, single `checked` subtask, persisted status
`checked`), `create_subtask` succeeds but leaves the persisted task
status `checked`, while the Status Aggregator over the new subtask set
yields `todo` — the invariant is not restored by this mutation. -/
theorem C2_counterexample :
    create_subtask exStore exAdmin 1 ⟨"extra", none⟩ = .ok (c2ResultStore, c2Sub2)
  ∧ (c2ResultStore.tasks.map (fun t => t.status)) = [TStatus.checked]
  ∧ (c2ResultStore.tasks.map (fun t => _compute_task_status t.subtasks)) = [TStatus.todo]
  ∧ TStatus.checked ≠ TStatus.todo := by
  refine ⟨rfl, by decide, by decide, by decide⟩

/-- Claim C6 (evaluation at the failing input): `app/models.py` declares
no unique constraint on the tasks table — `tasksTableUniqueColumnSets`
is empty — so when two concurrent `create_task` calls for the same
child and hash both pass the step-2 lookup before either commits, the
loser's insert also succeeds with outcome `created` and the store ends
with two tasks sharing the same `(child_id, hash)`. -/
theorem C6_missing_unique_constraint_race :
    tasksTableUniqueColumnSets = []
  ∧ emptyStore.tasks.find? (taskKeyMatches 3 1 "2025-10-01" (some "d")) = none
  ∧ create_task emptyStore exAdmin exPayloadTC "2025-09-30" = .ok (c6Store1, ⟨"created", c6Task1⟩)
  ∧ insertNewTask c6Store1 3 exPayloadTC "2025-10-01" = .ok (c6Store2, ⟨"created", c6Task2⟩)
  ∧ (c6Store2.tasks.map (fun t => (t.child_id, t.hash)))
      = [(3, "1:2025-10-01:d"), (3, "1:2025-10-01:d")] := by
  refine ⟨rfl, by decide, rfl, rfl, by decide⟩

/-- Claim C7 counterexample: with two retained records, the first of
which has an unresolvable subject, the whole run returns the not-found
error with no partial results: the sibling record is never processed
(no task is persisted), although the same sibling alone imports fine. -/
theorem C7_counterexample :
    processRecords fzFloor exSubjects "tmr" "2025-09-30" (.ok exAdmin) (some 3) emptyStore
        [blockPhys, blockMath]
      = (emptyStore, .error (.httpNotFound "физика"))
  ∧ runStore (processRecords fzFloor exSubjects "tmr" "2025-09-30" (.ok exAdmin) (some 3)
        emptyStore [blockMath]) = mathStore1
  ∧ runOk (processRecords fzFloor exSubjects "tmr" "2025-09-30" (.ok exAdmin) (some 3) emptyStore
        [blockPhys, blockMath]) = false := by
  refine ⟨rfl, by decide, by decide⟩

/-- Claim C10 (confirmed): `_tomorrow_str` always raises
`AttributeError` (it evaluates `datetime.timedelta` on the `datetime`
class), so a retained subject block whose extraction result has no date
— a missing key or an empty value — makes the record loop raise that
`AttributeError` instead of applying a tomorrow default; a default-dated
task is never persisted. -/
theorem C10_tomorrow_default_raises :
    (∀ tomorrow, _tomorrow_str tomorrow = .error (.attributeError "timedelta"))
  ∧ (∀ fz subjT tmr tdy uE cid st b rest sid,
      has_homework b = true →
      get_subject_id_by_name subjT (normalize_subject fz b.name 70) = .ok sid →
      (b.date = none ∨ b.date = some "") →
      processRecords fz subjT tmr tdy uE cid st (b :: rest)
        = (st, .error (.attributeError "timedelta"))) := by
  have htmr : ∀ tomorrow, _tomorrow_str tomorrow = .error (.attributeError "timedelta") :=
    fun _ => rfl
  refine ⟨htmr, ?_⟩
  intro fz subjT tmr tdy uE cid st b rest sid hh hres hdate
  have hbd : blockDate b tmr = .error (.attributeError "timedelta") := by
    rcases hdate with h | h <;> simp [blockDate, h, htmr]
  have hbc : buildAndCreate fz subjT tmr tdy uE cid st b
      = .error (.attributeError "timedelta") := by
    simp [buildAndCreate, hres, hbd]
  simp [processRecords, hh, hbc]

/-- Witness for C10: a concrete retained block with no date makes the
record loop fail with the `timedelta` attribute error and leave the
store untouched. -/
theorem C10_witness :
    processRecords fzFloor exSubjects "tmr" "2025-09-30" (.ok exAdmin) (some 3) emptyStore
        [blockNoDate]
      = (emptyStore, .error (.attributeError "timedelta")) :=
  C10_tomorrow_default_raises.2 fzFloor exSubjects "tmr" "2025-09-30" (.ok exAdmin) (some 3)
    emptyStore blockNoDate [] 1 (by decide) rfl (Or.inl rfl)

lemma update_status_filter_all (l : List JobRec) (jid : Nat) (s : JStatus) :
    ((_update_status l jid s).filter (fun jb => jb.id == jid)).all
      (fun jb => jb.status == s) = true := by
  rw [List.all_eq_true]
  intro jb hjb
  rw [List.mem_filter] at hjb
  obtain ⟨hmem, hid⟩ := hjb
  unfold _update_status at hmem
  rw [List.mem_map] at hmem
  obtain ⟨x, hx, hfx⟩ := hmem
  by_cases h : updateWhereMatches x jid = true
  · rw [if_pos h] at hfx
    subst hfx
    simp
  · rw [if_neg h] at hfx
    subst hfx
    exact absurd hid (by simpa [updateWhereMatches] using h)

/-- Claim C1 (evaluation at the failing input): the claim update's WHERE
clause tests only the job id (`updateWhereMatches`), so the
pending→running transition is not conditional on the status still being
pending.  With one pending job and both workers polling before either
update, the poll returns the same job to both, both workers' runs of
`_process_job` dispatch the handler (both dispatch flags are `true`),
and the second worker's run overwrites the job's status as well — it is
not the case that exactly one worker claims the job while the other
moves on. -/
theorem C1_unconditional_claim_race :
    (∀ j jid, updateWhereMatches j jid = (j.id == jid))
  ∧ (_fetch_next_job exJobs).isSome = true
  ∧ ((_process_job fzFloor exSubjects "tmr" "2025-09-30" exExtract exJobs emptyStore
        ((_fetch_next_job exJobs).getD .vNone)).2.2 = true)
  ∧ ((_process_job fzFloor exSubjects "tmr" "2025-09-30" exExtract
        (_process_job fzFloor exSubjects "tmr" "2025-09-30" exExtract exJobs emptyStore
          ((_fetch_next_job exJobs).getD .vNone)).1 emptyStore
        ((_fetch_next_job exJobs).getD .vNone)).2.2 = true)
  ∧ (((_process_job fzFloor exSubjects "tmr" "2025-09-30" exExtract
        (_process_job fzFloor exSubjects "tmr" "2025-09-30" exExtract exJobs emptyStore
          ((_fetch_next_job exJobs).getD .vNone)).1 emptyStore
        ((_fetch_next_job exJobs).getD .vNone)).1.map (fun jb => jb.status)) = [JStatus.failed]) := by
  exact ⟨fun j jid => rfl, rfl, rfl, rfl, rfl⟩

/-- Claim C9 (confirmed): the worker loop hands `_process_job` the
plain dict produced by `_fetch_next_job`, while the handler's first
statement reads `job.payload` as an attribute; for every fetched job of
type `import_homework` the handler therefore returns
`AttributeError("payload")` before any extraction call or store
mutation (the result does not depend on the extractor or the store),
the store is unchanged, and the job is recorded as `failed`. -/
theorem C9_worker_dict_attribute_error :
    ∀ jobs j fz subjT tmr tdy extract st,
    fetchNextJobRow jobs = some j →
    j.type = "import_homework" →
    process_import_homework fz subjT tmr tdy extract st ((_fetch_next_job jobs).getD .vNone)
        = (st, .error (.attributeError "payload"))
    ∧ (_process_job fz subjT tmr tdy extract jobs st ((_fetch_next_job jobs).getD .vNone)).2.1 = st
    ∧ (((_process_job fz subjT tmr tdy extract jobs st
          ((_fetch_next_job jobs).getD .vNone)).1.filter
        (fun jb => jb.id == j.id)).all (fun jb => jb.status == JStatus.failed)) = true := by
  intro jobs j fz subjT tmr tdy extract st hfetch hty
  have hd : (_fetch_next_job jobs).getD .vNone
      = PyVal.vDict [("id", .vInt j.id), ("user_id", .vInt j.user_id),
          ("type", .vStr j.type), ("status", .vStr "pending"), ("payload", j.payload)] := by
    rw [_fetch_next_job, hfetch]
    rfl
  rw [hd, hty]
  refine ⟨rfl, rfl, ?_⟩
  exact update_status_filter_all (_update_status jobs j.id .running) j.id .failed

/-- Witness for C9: on a concrete one-job store the worker-path handler
fails with `AttributeError("payload")` and leaves the task store
untouched. -/
theorem C9_witness :
    process_import_homework fzFloor exSubjects "tmr" "2025-09-30" exExtract emptyStore
        ((_fetch_next_job exJobs).getD .vNone)
      = (emptyStore, .error (.attributeError "payload")) :=
  (C9_worker_dict_attribute_error exJobs ⟨1, 7, "import_homework", .pending, exPayload, 0⟩
    fzFloor exSubjects "tmr" "2025-09-30" exExtract emptyStore rfl rfl).1

lemma statusMatchesAggregator_recompute (st : Store) (tid : Nat) :
    statusMatchesAggregator (recomputeTaskStatus st tid) tid = true := by
  unfold statusMatchesAggregator recomputeTaskStatus
  rw [List.all_eq_true]
  intro t ht
  rw [List.mem_map] at ht
  obtain ⟨x, hx, hfx⟩ := ht
  by_cases h : (x.id == tid) = true
  · rw [if_pos h] at hfx
    subst hfx
    simp
  · rw [if_neg h] at hfx
    subst hfx
    simp_all

lemma findTask_id (st : Store) (tid : Nat) (t : TaskRec) (h : findTask st tid = some t) :
    t.id = tid := by
  have := List.find?_some h
  simpa using this

lemma update_subtask_restores (st : Store) (u : UserRec) (sid : Nat) (p : SubtaskUpdateP)
    (st' : Store) (s' : SubtaskRec)
    (h : update_subtask st u sid p = .ok (st', s')) :
    statusMatchesAggregator st' s'.task_id = true := by
  unfold update_subtask at h
  cases hfind : findSubtaskRow st sid with
  | none =>
      simp only [hfind] at h
      exact Except.noConfusion h
  | some sub =>
      simp only [hfind] at h
      cases htask : findTask st sub.task_id with
      | none =>
          simp only [htask] at h
          exact Except.noConfusion h
      | some task =>
          simp only [htask] at h
          cases hacc : _ensure_access u task with
          | error e =>
              simp only [hacc] at h
              exact Except.noConfusion h
          | ok _ =>
              simp only [hacc] at h
              split at h
              · cases h
              · rename_i sub2 hsub2
                rw [Except.ok.injEq, Prod.mk.injEq] at h
                obtain ⟨hst, hs⟩ := h
                have htid : task.id = sub.task_id := findTask_id st sub.task_id task htask
                have hs2 : sub2.task_id = sub.task_id := by
                  split at hsub2
                  · rw [Except.ok.injEq] at hsub2
                    subst hsub2
                    cases hp : p.title <;> simp [hp]
                  · split at hsub2
                    · rw [Except.ok.injEq] at hsub2
                      subst hsub2
                      cases hp : p.title <;> simp [hp]
                    · cases hsub2
                have hs3 : s'.task_id = sub.task_id := by
                  subst hs
                  cases hr : p.parent_reaction <;> simp [hr, hs2]
                rw [← hst, hs3, ← htid]
                exact statusMatchesAggregator_recompute _ task.id

lemma start_subtask_restores (st : Store) (u : UserRec) (sid : Nat)
    (st' : Store) (s' : SubtaskRec)
    (h : start_subtask st u sid = .ok (st', s')) :
    statusMatchesAggregator st' s'.task_id = true := by
  unfold start_subtask at h
  cases hfind : findSubtaskRow st sid with
  | none =>
      simp only [hfind] at h
      exact Except.noConfusion h
  | some sub =>
      simp only [hfind] at h
      cases htask : findTask st sub.task_id with
      | none =>
          simp only [htask] at h
          exact Except.noConfusion h
      | some task =>
          simp only [htask] at h
          cases hacc : _ensure_access u task with
          | error e =>
              simp only [hacc] at h
              exact Except.noConfusion h
          | ok _ =>
              simp only [hacc] at h
              rw [Except.ok.injEq, Prod.mk.injEq] at h
              obtain ⟨hst, hs⟩ := h
              have htid : task.id = sub.task_id := findTask_id st sub.task_id task htask
              have hs3 : s'.task_id = sub.task_id := by
                rw [← hs]
                by_cases hq : (sub.status == TStatus.todo) = true <;> simp [hq]
              rw [← hst, hs3, ← htid]
              exact statusMatchesAggregator_recompute _ task.id

lemma complete_subtask_restores (st : Store) (u : UserRec) (sid : Nat)
    (st' : Store) (s' : SubtaskRec)
    (h : complete_subtask st u sid = .ok (st', s')) :
    statusMatchesAggregator st' s'.task_id = true := by
  unfold complete_subtask at h
  cases hfind : findSubtaskRow st sid with
  | none =>
      simp only [hfind] at h
      exact Except.noConfusion h
  | some sub =>
      simp only [hfind] at h
      cases htask : findTask st sub.task_id with
      | none =>
          simp only [htask] at h
          exact Except.noConfusion h
      | some task =>
          simp only [htask] at h
          cases hacc : _ensure_access u task with
          | error e =>
              simp only [hacc] at h
              exact Except.noConfusion h
          | ok _ =>
              simp only [hacc] at h
              rw [Except.ok.injEq, Prod.mk.injEq] at h
              obtain ⟨hst, hs⟩ := h
              have htid : task.id = sub.task_id := findTask_id st sub.task_id task htask
              have hs3 : s'.task_id = sub.task_id := by
                rw [← hs]
              rw [← hst, hs3, ← htid]
              exact statusMatchesAggregator_recompute _ task.id

lemma check_subtask_restores (st : Store) (u : UserRec) (sid : Nat)
    (st' : Store) (s' : SubtaskRec)
    (h : check_subtask st u sid = .ok (st', s')) :
    statusMatchesAggregator st' s'.task_id = true := by
  unfold check_subtask at h
  cases hfind : findSubtaskRow st sid with
  | none =>
      simp only [hfind] at h
      exact Except.noConfusion h
  | some sub =>
      simp only [hfind] at h
      cases htask : findTask st sub.task_id with
      | none =>
          simp only [htask] at h
          exact Except.noConfusion h
      | some task =>
          simp only [htask] at h
          cases hacc : _ensure_access u task with
          | error e =>
              simp only [hacc] at h
              exact Except.noConfusion h
          | ok _ =>
              simp only [hacc] at h
              rw [Except.ok.injEq, Prod.mk.injEq] at h
              obtain ⟨hst, hs⟩ := h
              have htid : task.id = sub.task_id := findTask_id st sub.task_id task htask
              have hs3 : s'.task_id = sub.task_id := by
                rw [← hs]
              rw [← hst, hs3, ← htid]
              exact statusMatchesAggregator_recompute _ task.id

lemma create_subtask_keeps_statuses (st : Store) (u : UserRec) (tid : Nat) (p : SubtaskCreateP)
    (st' : Store) (s' : SubtaskRec)
    (h : create_subtask st u tid p = .ok (st', s')) :
    taskStatuses st' = taskStatuses st := by
  unfold create_subtask at h
  cases hfind : findTask st tid with
  | none =>
      simp only [hfind] at h
      exact Except.noConfusion h
  | some task =>
      simp only [hfind] at h
      cases hacc : _ensure_access u task with
      | error e =>
          simp only [hacc] at h
          exact Except.noConfusion h
      | ok _ =>
          simp only [hacc] at h
          rw [Except.ok.injEq, Prod.mk.injEq] at h
          obtain ⟨hst, _⟩ := h
          rw [← hst]
          unfold taskStatuses
          rw [List.map_map]
          apply List.map_congr_left
          intro t ht
          by_cases hid : (t.id == tid) = true <;> simp [Function.comp, hid]

lemma delete_subtask_keeps_statuses (st : Store) (u : UserRec) (sid : Nat)
    (st' : Store) (r : String)
    (h : delete_subtask st u sid = .ok (st', r)) :
    taskStatuses st' = taskStatuses st := by
  unfold delete_subtask at h
  cases hfind : findSubtaskRow st sid with
  | none =>
      simp only [hfind] at h
      rw [Except.ok.injEq, Prod.mk.injEq] at h
      obtain ⟨hst, _⟩ := h
      rw [← hst]
  | some sub =>
      simp only [hfind] at h
      cases htask : findTask st sub.task_id with
      | none =>
          simp only [htask] at h
          exact Except.noConfusion h
      | some task =>
          simp only [htask] at h
          cases hacc : _ensure_access u task with
          | error e =>
              simp only [hacc] at h
              exact Except.noConfusion h
          | ok _ =>
              simp only [hacc] at h
              rw [Except.ok.injEq, Prod.mk.injEq] at h
              obtain ⟨hst, _⟩ := h
              rw [← hst]
              unfold taskStatuses
              rw [List.map_map]
              apply List.map_congr_left
              intro t ht
              simp [Function.comp]

lemma update_task_persists_status (st : Store) (u : UserRec) (tid : Nat) (p : TaskUpdateP)
    (s : String) (stv : TStatus) (st' : Store) (resp : TaskRec)
    (hp : p.status = some s) (hs : parseStatus s = some stv)
    (h : update_task st u tid p = .ok (st', resp)) :
    (st'.tasks.all (fun t => !(t.id == tid) || t.status == stv)) = true := by
  unfold update_task at h
  cases hfind : findTask st tid with
  | none =>
      simp only [hfind] at h
      exact Except.noConfusion h
  | some task =>
      simp only [hfind] at h
      cases hacc : _ensure_access u task with
      | error e =>
          simp only [hacc] at h
          exact Except.noConfusion h
      | ok _ =>
          simp only [hacc, hp, hs] at h
          split at h <;>
          · rw [Except.ok.injEq, Prod.mk.injEq] at h
            obtain ⟨hst, _⟩ := h
            rw [← hst]
            rw [List.all_eq_true]
            intro t ht
            rw [List.mem_map] at ht
            obtain ⟨x, hx, hfx⟩ := ht
            by_cases hid : (x.id == tid) = true
            · rw [if_pos hid] at hfx
              subst hfx
              simp
            · rw [if_neg hid] at hfx
              subst hfx
              simp_all

/-- Claim C2, amended (the invariant is restored only by the subtask
status endpoints): after a successful `update_subtask`, `start_subtask`,
`complete_subtask` or `check_subtask`, the parent task's persisted
status equals the Status Aggregator of its subtasks; but
`create_subtask` and `delete_subtask` leave every task's persisted
status exactly as it was (no recomputation), and `update_task` persists
the caller-supplied status verbatim on the stored row (recomputing only
the response), so the persisted status is not kept equal to the
aggregator after those mutations. -/
theorem C2_amended :
    (∀ st u sid p st' s', update_subtask st u sid p = .ok (st', s') →
      statusMatchesAggregator st' s'.task_id = true)
  ∧ (∀ st u sid st' s', start_subtask st u sid = .ok (st', s') →
      statusMatchesAggregator st' s'.task_id = true)
  ∧ (∀ st u sid st' s', complete_subtask st u sid = .ok (st', s') →
      statusMatchesAggregator st' s'.task_id = true)
  ∧ (∀ st u sid st' s', check_subtask st u sid = .ok (st', s') →
      statusMatchesAggregator st' s'.task_id = true)
  ∧ (∀ st u tid p st' s', create_subtask st u tid p = .ok (st', s') →
      taskStatuses st' = taskStatuses st)
  ∧ (∀ st u sid st' r, delete_subtask st u sid = .ok (st', r) →
      taskStatuses st' = taskStatuses st)
  ∧ (∀ st u tid p s stv st' resp, p.status = some s → parseStatus s = some stv →
      update_task st u tid p = .ok (st', resp) →
      (st'.tasks.all (fun t => !(t.id == tid) || t.status == stv)) = true) :=
  ⟨update_subtask_restores, start_subtask_restores, complete_subtask_restores,
   check_subtask_restores, create_subtask_keeps_statuses, delete_subtask_keeps_statuses,
   update_task_persists_status⟩

/-- Witness for the amended C2: a concrete `complete_subtask` run leaves
the parent task's persisted status equal to the aggregator. -/
theorem C2_amended_witness :
    statusMatchesAggregator c2WitnessStore 1 = true :=
  C2_amended.2.2.1 exStore exAdmin 1 c2WitnessStore c2DoneSub rfl

/-- Claim C5 (confirmed): when the upsert finds an existing task by the
lookup key and the payload carries at least one net-new subtask title,
the outcome is `updated`, the existing subtasks are kept unchanged as a
prefix (same id, title, status, type and position), exactly the net-new
titles are appended in payload order, their positions strictly continue
from the current maximum (max+1, max+2, ...), and the rest of the store
is untouched (only the found task's row is replaced). -/
theorem C5_merge_monotonicity :
    ∀ st u p today existing,
    st.tasks.find? (taskKeyMatches (resolveChildId u p.child_id) p.subject_id
        (effectiveDate p.date today) p.title) = some existing →
    newSubtaskTitles (p.subtasks.getD []) (subtaskTitles existing) ≠ [] →
    upsertOutcome (create_task st u p today) = "updated"
    ∧ (upsertTask (create_task st u p today)).id = existing.id
    ∧ (upsertTask (create_task st u p today)).subtasks.take existing.subtasks.length
        = existing.subtasks
    ∧ subtaskTitles (upsertTask (create_task st u p today))
        = subtaskTitles existing ++ newSubtaskTitles (p.subtasks.getD []) (subtaskTitles existing)
    ∧ ((upsertTask (create_task st u p today)).subtasks.drop existing.subtasks.length).map
          (fun s => s.position)
        = (List.range (newSubtaskTitles (p.subtasks.getD []) (subtaskTitles existing)).length).map
            (fun i => some (maxPosition existing.subtasks + 1 + i))
    ∧ (upsertStore (create_task st u p today) st).tasks
        = st.tasks.map (fun t =>
            if t.id == existing.id then upsertTask (create_task st u p today) else t)
    ∧ (upsertStore (create_task st u p today) st).nextTaskId = st.nextTaskId := by
  intro st u p today existing hfind hnew
  have hne : (newSubtaskTitles (p.subtasks.getD []) (subtaskTitles existing)).isEmpty = false := by
    cases hq : newSubtaskTitles (p.subtasks.getD []) (subtaskTitles existing) with
    | nil => exact absurd hq hnew
    | cons a l => rfl
  have hct : create_task st u p today = mergeIntoExisting st p existing := by
    unfold create_task
    simp only [hfind]
  refine ⟨?_, ?_, ?_, ?_, ?_, ?_, ?_⟩
  · simp only [hct, mergeIntoExisting, hne, upsertOutcome, Bool.false_eq_true, if_false]
  · simp only [hct, mergeIntoExisting, hne, upsertTask, mergedTask, Bool.false_eq_true, if_false]
  · simp only [hct, mergeIntoExisting, hne, upsertTask, mergedTask, Bool.false_eq_true, if_false]
    exact List.take_left existing.subtasks _
  · simp only [hct, mergeIntoExisting, hne, upsertTask, mergedTask, mergeAppended,
      Bool.false_eq_true, if_false]
    unfold subtaskTitles
    rw [List.map_append, List.map_map]
    congr 1
    rw [show ((fun s => s.title) ∘ fun q => SubtaskRec.mk (st.nextSubId + q.1) existing.id q.2
          TStatus.todo (lookupIncomingType (p.subtasks.getD []) q.2) none
          (some (maxPosition existing.subtasks + 1 + q.1)))
        = Prod.snd from rfl]
    exact List.enum_map_snd _
  · simp only [hct, mergeIntoExisting, hne, upsertTask, mergedTask, mergeAppended,
      Bool.false_eq_true, if_false]
    rw [List.drop_left, List.map_map]
    rw [show ((fun s => s.position) ∘ fun q => SubtaskRec.mk (st.nextSubId + q.1) existing.id q.2
          TStatus.todo (lookupIncomingType (p.subtasks.getD []) q.2) none
          (some (maxPosition existing.subtasks + 1 + q.1)))
        = ((fun i => some (maxPosition existing.subtasks + 1 + i)) ∘ Prod.fst) from rfl]
    rw [← List.map_map, List.enum_map_fst]
  · simp only [hct, mergeIntoExisting, hne, upsertTask, upsertStore, mergedTask, Bool.false_eq_true, if_false]
  · simp only [hct, mergeIntoExisting, hne, upsertStore, Bool.false_eq_true, if_false]

/-- Witness for C5: a concrete merge with one pre-existing and one new
subtask title reports outcome `updated`. -/
theorem C5_witness :
    upsertOutcome (create_task exStore exAdmin c5Payload "2025-09-30") = "updated" :=
  (C5_merge_monotonicity exStore exAdmin c5Payload "2025-09-30" exTaskChecked (by decide)
    (by decide)).1

lemma find?_map_pres {α : Type} (f : α → α) (p : α → Bool) :
    ∀ l : List α, (∀ x ∈ l, p (f x) = p x) →
    (l.map f).find? p = (l.find? p).map f := by
  intro l
  induction l with
  | nil => intro _; rfl
  | cons a l ih =>
      intro hp
      have ha := hp a (by simp)
      by_cases h : p a = true
      · rw [List.map_cons, List.find?_cons_of_pos _ (by rw [ha]; exact h),
            List.find?_cons_of_pos _ h]
        rfl
      · rw [List.map_cons, List.find?_cons_of_neg, List.find?_cons_of_neg _ (by simpa using h)]
        · exact ih (fun x hx => hp x (by simp [hx]))
        · rw [ha]
          simpa using h

lemma filter_map_pres {α : Type} (f : α → α) (p : α → Bool) :
    ∀ l : List α, (∀ x ∈ l, p (f x) = p x) →
    (l.map f).filter p = (l.filter p).map f := by
  intro l
  induction l with
  | nil => intro _; rfl
  | cons a l ih =>
      intro hp
      have ha := hp a (by simp)
      have ihl := ih (fun x hx => hp x (by simp [hx]))
      by_cases h : p a = true
      · rw [List.map_cons, List.filter_cons_of_pos (by rw [ha]; exact h),
            List.filter_cons_of_pos h, List.map_cons, ihl]
      · rw [List.map_cons, List.filter_cons_of_neg (by rw [ha]; simpa using h),
            List.filter_cons_of_neg (by simpa using h), ihl]

lemma nodup_id_eq {l : List TaskRec} (h : (l.map (fun t => t.id)).Nodup)
    {a b : TaskRec} (ha : a ∈ l) (hb : b ∈ l) (hid : a.id = b.id) : a = b :=
  List.inj_on_of_nodup_map h ha hb hid

lemma storeGrows_refl (st : Store) : storeGrows st st := by
  intro c s d ti t ht
  exact ⟨t, ht, rfl, fun x hx => hx⟩

lemma storeGrows_trans {st1 st2 st3 : Store} (h12 : storeGrows st1 st2)
    (h23 : storeGrows st2 st3) : storeGrows st1 st3 := by
  intro c s d ti t ht
  obtain ⟨t2, ht2, hid2, hsub2⟩ := h12 c s d ti t ht
  obtain ⟨t3, ht3, hid3, hsub3⟩ := h23 c s d ti t2 ht2
  exact ⟨t3, ht3, hid3.trans hid2, fun x hx => hsub3 x (hsub2 x hx)⟩

lemma settled_mono {fz subjT u cid st st' b} (hg : storeGrows st st')
    (hs : blockSettled fz subjT u cid st b) : blockSettled fz subjT u cid st' b := by
  obtain ⟨sid, d, t, hres, hdate, hdne, hfind, htitles⟩ := hs
  obtain ⟨t', hfind', _, hsub⟩ := hg _ _ _ _ t hfind
  exact ⟨sid, d, t', hres, hdate, hdne, hfind', fun sub hsub2 => hsub _ (htitles sub hsub2)⟩

lemma enum_mk_titles (nid eid mpos : Nat) (incoming : List SubtaskCreateP)
    (ts : List String) :
    ((ts.enum.map (fun q => SubtaskRec.mk (nid + q.1) eid q.2 .todo
        (lookupIncomingType incoming q.2) none (some (mpos + 1 + q.1)))).map
      (fun s => s.title)) = ts := by
  rw [List.map_map]
  rw [show ((fun s : SubtaskRec => s.title) ∘ fun q : Nat × String =>
        SubtaskRec.mk (nid + q.1) eid q.2 TStatus.todo (lookupIncomingType incoming q.2)
          none (some (mpos + 1 + q.1))) = Prod.snd from rfl]
  exact List.enum_map_snd ts

lemma enum_mk_titles2 (nid tid : Nat) (subsP : List SubtaskCreateP) :
    ((subsP.enum.map (fun q => SubtaskRec.mk (nid + q.1) tid q.2.title .todo q.2.type
        none (some (q.1 + 1)))).map (fun s => s.title)) = subsP.map (fun s => s.title) := by
  rw [List.map_map]
  rw [show ((fun s : SubtaskRec => s.title) ∘ fun q : Nat × SubtaskCreateP =>
        SubtaskRec.mk (nid + q.1) tid q.2.title TStatus.todo q.2.type none (some (q.1 + 1)))
      = ((fun s : SubtaskCreateP => s.title) ∘ Prod.snd) from rfl]
  rw [← List.map_map, List.enum_map_snd]

lemma create_task_duplicate (st : Store) (u : UserRec) (p : TaskCreateP) (today : String)
    (existing : TaskRec)
    (hfind : st.tasks.find? (taskKeyMatches (resolveChildId u p.child_id) p.subject_id
      (effectiveDate p.date today) p.title) = some existing)
    (hall : ∀ s ∈ p.subtasks.getD [], s.title ∈ subtaskTitles existing) :
    create_task st u p today = .ok (st, ⟨"duplicate", existing⟩) := by
  have hnil : newSubtaskTitles (p.subtasks.getD []) (subtaskTitles existing) = [] := by
    unfold newSubtaskTitles
    rw [List.filter_eq_nil_iff.2, List.map_nil]
    intro s hs
    have := hall s hs
    simp [List.elem_iff, this]
  unfold create_task
  simp only [hfind]
  unfold mergeIntoExisting
  simp only [hnil, List.isEmpty_nil, if_true]

lemma mergedTask_keyInv (st : Store) (p : TaskCreateP) (existing : TaskRec)
    (c s : Nat) (d : String) (ti : Option String) :
    taskKeyMatches c s d ti (mergedTask st p existing)
      = taskKeyMatches c s d ti existing := rfl

lemma mergedTask_id (st : Store) (p : TaskCreateP) (existing : TaskRec) :
    (mergedTask st p existing).id = existing.id := rfl

lemma mergedTask_titles (st : Store) (p : TaskCreateP) (existing : TaskRec) :
    subtaskTitles (mergedTask st p existing)
      = subtaskTitles existing
        ++ newSubtaskTitles (p.subtasks.getD []) (subtaskTitles existing) := by
  unfold subtaskTitles mergedTask mergeAppended
  rw [List.map_append]
  congr 1
  exact enum_mk_titles st.nextSubId existing.id (maxPosition existing.subtasks)
    (p.subtasks.getD []) _

lemma insertedWithStatus_fields (st : Store) (childId : Nat) (p : TaskCreateP)
    (dateStr : String) :
    (insertedWithStatus st childId p dateStr).id = st.nextTaskId
    ∧ (insertedWithStatus st childId p dateStr).child_id = childId
    ∧ (insertedWithStatus st childId p dateStr).subject_id = p.subject_id
    ∧ (insertedWithStatus st childId p dateStr).date = dateStr
    ∧ (insertedWithStatus st childId p dateStr).title = p.title
    ∧ (insertedWithStatus st childId p dateStr).subtasks = insertSubs st p := by
  unfold insertedWithStatus insertedTask
  by_cases hq : (insertSubs st p).isEmpty = true
  · rw [if_pos hq]
    exact ⟨rfl, rfl, rfl, rfl, rfl, rfl⟩
  · rw [if_neg hq]
    exact ⟨rfl, rfl, rfl, rfl, rfl, rfl⟩

lemma insertSubs_titles (st : Store) (p : TaskCreateP) :
    (insertSubs st p).map (fun s => s.title) = (p.subtasks.getD []).map (fun s => s.title) := by
  unfold insertSubs
  exact enum_mk_titles2 st.nextSubId st.nextTaskId (p.subtasks.getD [])

lemma create_task_cases (st : Store) (u : UserRec) (p : TaskCreateP) (today : String)
    (st' : Store) (r : TaskResponseM)
    (hwf : storeWF st)
    (h : create_task st u p today = .ok (st', r)) :
    storeWF st' ∧ storeGrows st st' ∧ (keyUnique st → keyUnique st') ∧
    (∃ t', st'.tasks.find? (taskKeyMatches (resolveChildId u p.child_id) p.subject_id
        (effectiveDate p.date today) p.title) = some t' ∧
      ∀ s ∈ p.subtasks.getD [], s.title ∈ subtaskTitles t') := by
  unfold create_task at h
  cases hfind : st.tasks.find? (taskKeyMatches (resolveChildId u p.child_id) p.subject_id
      (effectiveDate p.date today) p.title) with
  | some existing =>
      simp only [hfind] at h
      unfold mergeIntoExisting at h
      have hexmem : existing ∈ st.tasks := List.mem_of_find?_eq_some hfind
      by_cases hne : (newSubtaskTitles (p.subtasks.getD []) (subtaskTitles existing)).isEmpty
          = true
      · -- duplicate branch: no mutation at all
        simp only [hne, if_true] at h
        rw [Except.ok.injEq, Prod.mk.injEq] at h
        obtain ⟨hst, _⟩ := h
        subst hst
        refine ⟨hwf, storeGrows_refl st, fun hk => hk, existing, hfind, ?_⟩
        intro s hs
        have hemp := List.isEmpty_iff.1 hne
        unfold newSubtaskTitles at hemp
        have hfe : (p.subtasks.getD []).filter
            (fun s => !((subtaskTitles existing).contains s.title)) = [] :=
          List.map_eq_nil_iff.1 hemp
        have hns := List.filter_eq_nil_iff.1 hfe s hs
        rw [← List.elem_iff]
        simpa using hns
      · -- updated branch
        rw [Bool.not_eq_true] at hne
        simp only [hne, Bool.false_eq_true, if_false] at h
        rw [Except.ok.injEq, Prod.mk.injEq] at h
        obtain ⟨hst, _⟩ := h
        have hidf : ∀ x : TaskRec,
            (if (x.id == existing.id) = true then mergedTask st p existing else x).id = x.id := by
          intro x
          by_cases hx : (x.id == existing.id) = true
          · rw [if_pos hx, mergedTask_id]
            exact (beq_iff_eq.1 hx).symm
          · rw [if_neg hx]
        have hkeyf : ∀ x ∈ st.tasks, ∀ c s d ti,
            taskKeyMatches c s d ti
              (if (x.id == existing.id) = true then mergedTask st p existing else x)
              = taskKeyMatches c s d ti x := by
          intro x hx c s d ti
          by_cases hxe : (x.id == existing.id) = true
          · rw [if_pos hxe, mergedTask_keyInv]
            rw [nodup_id_eq hwf.1 hx hexmem (beq_iff_eq.1 hxe)]
          · rw [if_neg hxe]
        have hids : (st'.tasks.map (fun t => t.id)) = st.tasks.map (fun t => t.id) := by
          rw [← hst, List.map_map]
          exact List.map_congr_left (fun x _ => hidf x)
        refine ⟨?_, ?_, ?_, ?_⟩
        · -- storeWF
          constructor
          · rw [hids]
            exact hwf.1
          · intro t ht
            rw [← hst] at ht
            rw [List.mem_map] at ht
            obtain ⟨x, hx, hfx⟩ := ht
            have : t.id = x.id := by rw [← hfx]; exact hidf x
            rw [show st'.nextTaskId = st.nextTaskId by rw [← hst]]
            rw [this]
            exact hwf.2 x hx
        · -- storeGrows
          intro c s d ti t ht
          have hf := find?_map_pres
            (fun x => if (x.id == existing.id) = true then mergedTask st p existing else x)
            (taskKeyMatches c s d ti) st.tasks (fun x hx => hkeyf x hx c s d ti)
          rw [← hst]
          rw [hf, ht]
          refine ⟨_, rfl, hidf t, ?_⟩
          by_cases hte : (t.id == existing.id) = true
          · simp only [hte, if_true]
            have hteq : t = existing :=
              nodup_id_eq hwf.1 (List.mem_of_find?_eq_some ht) hexmem (beq_iff_eq.1 hte)
            rw [hteq, mergedTask_titles]
            intro x hx
            exact List.mem_append.2 (Or.inl hx)
          · rw [Bool.not_eq_true] at hte
            simp only [hte, Bool.false_eq_true, if_false]
            exact fun x hx => hx
        · -- keyUnique preserved
          intro hk c s d ti
          unfold countKey
          rw [← hst]
          rw [filter_map_pres
            (fun x => if (x.id == existing.id) = true then mergedTask st p existing else x)
            (taskKeyMatches c s d ti) st.tasks (fun x hx => hkeyf x hx c s d ti)]
          rw [List.length_map]
          exact hk c s d ti
        · -- the block's task exists with all incoming titles
          refine ⟨mergedTask st p existing, ?_, ?_⟩
          · rw [← hst]
            rw [find?_map_pres
              (fun x => if (x.id == existing.id) = true then mergedTask st p existing else x)
              _ st.tasks (fun x hx => hkeyf x hx _ _ _ _), hfind]
            simp
          · intro s hs
            rw [mergedTask_titles]
            by_cases hc : ((subtaskTitles existing).contains s.title) = true
            · refine List.mem_append.2 (Or.inl ?_)
              rw [← List.elem_iff]
              exact hc
            · refine List.mem_append.2 (Or.inr ?_)
              unfold newSubtaskTitles
              rw [List.mem_map]
              refine ⟨s, List.mem_filter.2 ⟨hs, ?_⟩, rfl⟩
              rw [Bool.not_eq_true] at hc
              rw [hc]
              rfl
  | none =>
      simp only [hfind] at h
      unfold insertNewTask at h
      have hviol : violatesTaskUnique st.tasks
          (insertedTask st (resolveChildId u p.child_id) p (effectiveDate p.date today))
          = false := rfl
      simp only [hviol, Bool.false_eq_true, if_false] at h
      rw [Except.ok.injEq, Prod.mk.injEq] at h
      obtain ⟨hst, _⟩ := h
      obtain ⟨hwid, hwchild, hwsub, hwdate, hwtitle, hwsubs⟩ :=
        insertedWithStatus_fields st (resolveChildId u p.child_id) p (effectiveDate p.date today)
      refine ⟨?_, ?_, ?_, ?_⟩
      · -- storeWF
        constructor
        · rw [← hst, List.map_append]
          rw [List.nodup_append]
          refine ⟨hwf.1, by simp, ?_⟩
          intro a ha hb
          simp only [List.map_cons, List.map_nil, List.mem_singleton] at hb
          rw [List.mem_map] at ha
          obtain ⟨x, hx, hfx⟩ := ha
          have := hwf.2 x hx
          rw [hfx] at this
          rw [hb, hwid] at this
          exact Nat.lt_irrefl _ this
        · intro t ht
          rw [← hst] at ht
          rw [List.mem_append] at ht
          rcases ht with ht | ht
          · have := hwf.2 t ht
            rw [show st'.nextTaskId = st.nextTaskId + 1 by rw [← hst]]
            exact Nat.lt_succ_of_lt this
          · rw [List.mem_singleton] at ht
            rw [ht, hwid, show st'.nextTaskId = st.nextTaskId + 1 by rw [← hst]]
            exact Nat.lt_succ_self _
      · -- storeGrows
        intro c s d ti t ht
        rw [← hst, List.find?_append, ht, Option.or_some]
        exact ⟨t, rfl, rfl, fun x hx => hx⟩
      · -- keyUnique preserved
        intro hk c s d ti
        unfold countKey
        rw [← hst, List.filter_append, List.length_append]
        by_cases hpw : taskKeyMatches c s d ti
            (insertedWithStatus st (resolveChildId u p.child_id) p (effectiveDate p.date today))
            = true
        · -- the new row matches this key: then the key is the payload key and had count 0
          have hkey : c = resolveChildId u p.child_id ∧ s = p.subject_id
              ∧ d = effectiveDate p.date today ∧ ti = p.title := by
            unfold taskKeyMatches at hpw
            rw [hwchild, hwsub, hwdate, hwtitle] at hpw
            simp only [Bool.and_eq_true, beq_iff_eq] at hpw
            exact ⟨hpw.1.1.1.symm, hpw.1.1.2.symm, hpw.1.2.symm, hpw.2.symm⟩
          obtain ⟨hc, hs, hd, hti⟩ := hkey
          subst hc; subst hs; subst hd; subst hti
          have hzero : st.tasks.filter (taskKeyMatches (resolveChildId u p.child_id)
              p.subject_id (effectiveDate p.date today) p.title) = [] := by
            rw [List.filter_eq_nil_iff]
            intro a ha
            have := List.find?_eq_none.1 hfind a ha
            simpa using this
          rw [hzero]
          simp only [List.length_nil, Nat.zero_add]
          exact le_trans (List.length_filter_le _ _) (by simp)
        · rw [Bool.not_eq_true] at hpw
          have : List.filter (taskKeyMatches c s d ti)
              [insertedWithStatus st (resolveChildId u p.child_id) p
                (effectiveDate p.date today)] = [] := by
            rw [List.filter_eq_nil_iff]
            intro a ha
            rw [List.mem_singleton] at ha
            rw [ha, hpw]
            simp
          rw [this]
          simpa using hk c s d ti
      · -- the inserted task carries every incoming title
        refine ⟨insertedWithStatus st (resolveChildId u p.child_id) p
          (effectiveDate p.date today), ?_, ?_⟩
        · rw [← hst, List.find?_append]
          rw [hfind]
          have hpw : taskKeyMatches (resolveChildId u p.child_id) p.subject_id
              (effectiveDate p.date today) p.title
              (insertedWithStatus st (resolveChildId u p.child_id) p
                (effectiveDate p.date today)) = true := by
            unfold taskKeyMatches
            rw [hwchild, hwsub, hwdate, hwtitle]
            simp
          rw [Option.none_or]
          rw [List.find?_cons_of_pos _ hpw]
        · intro s hs
          unfold subtaskTitles
          rw [hwsubs, insertSubs_titles]
          exact List.mem_map.2 ⟨s, hs, rfl⟩

lemma blockDate_ok (b : SubjectBlock) (tmr d : String)
    (h : blockDate b tmr = .ok d) : b.date = some d ∧ (d == "") = false := by
  have htmr : _tomorrow_str tmr = .error (.attributeError "timedelta") := rfl
  unfold blockDate at h
  cases hd : b.date with
  | none =>
      simp only [hd] at h
      rw [htmr] at h
      exact Except.noConfusion h
  | some d' =>
      simp only [hd] at h
      by_cases he : (d' == "") = true
      · rw [if_pos he, htmr] at h
        exact Except.noConfusion h
      · rw [if_neg he] at h
        rw [Except.ok.injEq] at h
        subst h
        rw [Bool.not_eq_true] at he
        exact ⟨rfl, he⟩

lemma effectiveDate_of_ne (d tdy : String) (hdne : (d == "") = false) :
    effectiveDate (some d) tdy = d := by
  show (if (d == "") = true then tdy else d) = d
  rw [hdne]
  simp

lemma buildAndCreate_ok_cases (fz : FuzzyMatcher) (subjT : List (Nat × String))
    (tmr tdy : String) (u : UserRec) (cid : Option Nat) (st : Store) (b : SubjectBlock)
    (st' : Store) (r : TaskResponseM)
    (hwf : storeWF st)
    (h : buildAndCreate fz subjT tmr tdy (.ok u) cid st b = .ok (st', r)) :
    storeWF st' ∧ storeGrows st st' ∧ (keyUnique st → keyUnique st')
    ∧ blockSettled fz subjT u cid st' b := by
  unfold buildAndCreate at h
  cases hres : get_subject_id_by_name subjT (normalize_subject fz b.name 70) with
  | error e =>
      simp only [hres] at h
      exact Except.noConfusion h
  | ok sid =>
      simp only [hres] at h
      cases hbd : blockDate b tmr with
      | error e =>
          simp only [hbd] at h
          exact Except.noConfusion h
      | ok d =>
          simp only [hbd] at h
          obtain ⟨hdate, hdne⟩ := blockDate_ok b tmr d hbd
          have hcc := create_task_cases st u ⟨sid, some d, some (trim_description b.descr),
            some (make_task_hash sid d (trim_description b.descr)),
            some (importSubtaskCreates fz b.subtasks), cid⟩ tdy st' r hwf h
          obtain ⟨hwf', hgrow, hku, t', hfind', htitles⟩ := hcc
          refine ⟨hwf', hgrow, hku, sid, d, t', hres, hdate, hdne, ?_, ?_⟩
          · rw [← effectiveDate_of_ne d tdy hdne]
            exact hfind'
          · intro sub hsub
            have hm : (SubtaskCreateP.mk sub.detail (some (detect_category fz sub.type 80)))
                ∈ importSubtaskCreates fz b.subtasks :=
              List.mem_map.2 ⟨sub, hsub, rfl⟩
            exact htitles _ hm

lemma buildAndCreate_settled_dup (fz : FuzzyMatcher) (subjT : List (Nat × String))
    (tmr tdy : String) (u : UserRec) (cid : Option Nat) (st : Store) (b : SubjectBlock)
    (hs : blockSettled fz subjT u cid st b) :
    ∃ t, buildAndCreate fz subjT tmr tdy (.ok u) cid st b = .ok (st, ⟨"duplicate", t⟩) := by
  obtain ⟨sid, d, t, hres, hdate, hdne, hfind, htitles⟩ := hs
  refine ⟨t, ?_⟩
  unfold buildAndCreate
  simp only [hres]
  have hbd : blockDate b tmr = .ok d := by
    unfold blockDate
    simp only [hdate]
    rw [if_neg (by rw [hdne]; exact fun hq => Bool.noConfusion hq)]
  simp only [hbd]
  exact create_task_duplicate st u ⟨sid, some d, some (trim_description b.descr),
    some (make_task_hash sid d (trim_description b.descr)),
    some (importSubtaskCreates fz b.subtasks), cid⟩ tdy t
    (by rw [effectiveDate_of_ne d tdy hdne]; exact hfind)
    (by
      intro s hsmem
      obtain ⟨sub, hsub, hEq⟩ := List.mem_map.1 hsmem
      rw [← hEq]
      exact htitles sub hsub)

lemma run_establishes (fz : FuzzyMatcher) (subjT : List (Nat × String)) (tmr tdy : String)
    (u : UserRec) (cid : Option Nat) :
    ∀ (blocks : List SubjectBlock) (st st1 : Store) (outs : List TaskResponseM),
    storeWF st →
    processRecords fz subjT tmr tdy (.ok u) cid st blocks = (st1, .ok outs) →
    storeWF st1 ∧ storeGrows st st1 ∧ (keyUnique st → keyUnique st1)
    ∧ (∀ b ∈ blocks, has_homework b = true → blockSettled fz subjT u cid st1 b)
    ∧ outs.length = (blocks.filter (fun b => has_homework b)).length := by
  intro blocks
  induction blocks with
  | nil =>
      intro st st1 outs hwf h
      unfold processRecords at h
      rw [Prod.mk.injEq] at h
      obtain ⟨h1, h2⟩ := h
      rw [Except.ok.injEq] at h2
      subst h1
      subst h2
      exact ⟨hwf, storeGrows_refl st, fun hk => hk, by simp, by simp⟩
  | cons b rest ih =>
      intro st st1 outs hwf h
      unfold processRecords at h
      by_cases hh : has_homework b = true
      · simp only [hh, Bool.not_true, Bool.false_eq_true, if_false] at h
        cases hbc : buildAndCreate fz subjT tmr tdy (.ok u) cid st b with
        | error e =>
            rw [hbc] at h
            rw [Prod.mk.injEq] at h
            exact Except.noConfusion h.2
        | ok sr =>
            obtain ⟨stA, rA⟩ := sr
            simp only [hbc] at h
            cases hrec : processRecords fz subjT tmr tdy (.ok u) cid stA rest with
            | mk st2 res2 =>
                rw [hrec] at h
                cases res2 with
                | error e =>
                    rw [Prod.mk.injEq] at h
                    exact Except.noConfusion h.2
                | ok outs2 =>
                    rw [Prod.mk.injEq] at h
                    obtain ⟨h1, h2⟩ := h
                    rw [Except.ok.injEq] at h2
                    subst h1
                    subst h2
                    obtain ⟨hwfA, hgrowA, hkuA, hsetB⟩ :=
                      buildAndCreate_ok_cases fz subjT tmr tdy u cid st b stA rA hwf hbc
                    obtain ⟨hwfB, hgrowB, hkuB, hsetR, hlen⟩ :=
                      ih stA st2 outs2 hwfA hrec
                    refine ⟨hwfB, storeGrows_trans hgrowA hgrowB,
                      fun hk => hkuB (hkuA hk), ?_, ?_⟩
                    · intro b' hb' hhb'
                      rcases List.mem_cons.1 hb' with hbeq | hbmem
                      · subst hbeq
                        exact settled_mono hgrowB hsetB
                      · exact hsetR b' hbmem hhb'
                    · rw [List.length_cons, hlen, List.filter_cons_of_pos hh]
                      rfl
      · rw [Bool.not_eq_true] at hh
        simp only [hh, Bool.not_false, if_true] at h
        obtain ⟨hwf1, hgrow, hku, hset, hlen⟩ := ih st st1 outs hwf h
        refine ⟨hwf1, hgrow, hku, ?_, ?_⟩
        · intro b' hb' hhb'
          rcases List.mem_cons.1 hb' with hbeq | hbmem
          · subst hbeq
            rw [hh] at hhb'
            exact Bool.noConfusion hhb'
          · exact hset b' hbmem hhb'
        · rw [hlen, List.filter_cons_of_neg (by rw [hh]; exact fun hq => Bool.noConfusion hq)]

lemma run_duplicates (fz : FuzzyMatcher) (subjT : List (Nat × String)) (tmr tdy : String)
    (u : UserRec) (cid : Option Nat) :
    ∀ (blocks : List SubjectBlock) (st : Store),
    (∀ b ∈ blocks, has_homework b = true → blockSettled fz subjT u cid st b) →
    ∃ outs2, processRecords fz subjT tmr tdy (.ok u) cid st blocks = (st, .ok outs2)
      ∧ outs2.length = (blocks.filter (fun b => has_homework b)).length
      ∧ ∀ o ∈ outs2, o.status = "duplicate" := by
  intro blocks
  induction blocks with
  | nil =>
      intro st _
      exact ⟨[], rfl, by simp, by simp⟩
  | cons b rest ih =>
      intro st hset
      by_cases hh : has_homework b = true
      · obtain ⟨t, hbc⟩ :=
          buildAndCreate_settled_dup fz subjT tmr tdy u cid st b (hset b (by simp) hh)
        obtain ⟨outs2, hrec, hlen, hdup⟩ :=
          ih st (fun b' hb' => hset b' (List.mem_cons.2 (Or.inr hb')))
        refine ⟨⟨"duplicate", t⟩ :: outs2, ?_, ?_, ?_⟩
        · unfold processRecords
          simp only [hh, Bool.not_true, Bool.false_eq_true, if_false, hbc, hrec]
        · rw [List.length_cons, hlen, List.filter_cons_of_pos hh]
          rfl
        · intro o ho
          rcases List.mem_cons.1 ho with hoe | hom
          · subst hoe
            rfl
          · exact hdup o hom
      · obtain ⟨outs2, hrec, hlen, hdup⟩ :=
          ih st (fun b' hb' => hset b' (List.mem_cons.2 (Or.inr hb')))
        rw [Bool.not_eq_true] at hh
        refine ⟨outs2, ?_, ?_, hdup⟩
        · unfold processRecords
          simp only [hh, Bool.not_false, if_true]
          exact hrec
        · rw [hlen, List.filter_cons_of_neg (by rw [hh]; exact fun hq => Bool.noConfusion hq)]

lemma processRecords_cons_err (fz : FuzzyMatcher) (subjT : List (Nat × String))
    (tmr tdy : String) (uE : Except PyError UserRec) (cid : Option Nat)
    (st : Store) (b : SubjectBlock) (rest : List SubjectBlock) (e : PyError)
    (hh : has_homework b = true)
    (hres : get_subject_id_by_name subjT (normalize_subject fz b.name 70) = .error e) :
    processRecords fz subjT tmr tdy uE cid st (b :: rest) = (st, .error e) := by
  have hbc : buildAndCreate fz subjT tmr tdy uE cid st b = .error e := by
    unfold buildAndCreate
    simp only [hres]
  unfold processRecords
  simp only [hh, Bool.not_true, Bool.false_eq_true, if_false, hbc]

lemma processRecords_nil (fz : FuzzyMatcher) (subjT : List (Nat × String))
    (tmr tdy : String) (uE : Except PyError UserRec) (cid : Option Nat) (st : Store) :
    processRecords fz subjT tmr tdy uE cid st [] = (st, .ok []) := rfl

lemma processRecords_cons (fz : FuzzyMatcher) (subjT : List (Nat × String))
    (tmr tdy : String) (uE : Except PyError UserRec) (cid : Option Nat) (st : Store)
    (b : SubjectBlock) (rest : List SubjectBlock) :
    processRecords fz subjT tmr tdy uE cid st (b :: rest)
      = if !(has_homework b) then processRecords fz subjT tmr tdy uE cid st rest
        else
          match buildAndCreate fz subjT tmr tdy uE cid st b with
          | .error e => (st, .error e)
          | .ok (st', r) =>
              match processRecords fz subjT tmr tdy uE cid st' rest with
              | (st'', .error e) => (st'', .error e)
              | (st'', .ok rs) => (st'', .ok (r :: rs)) := rfl

lemma processRecords_ok_then (fz : FuzzyMatcher) (subjT : List (Nat × String))
    (tmr tdy : String) (uE : Except PyError UserRec) (cid : Option Nat) :
    ∀ (xs : List SubjectBlock) (st st1 : Store) (outs : List TaskResponseM)
      (zs : List SubjectBlock),
    processRecords fz subjT tmr tdy uE cid st xs = (st1, .ok outs) →
    processRecords fz subjT tmr tdy uE cid st (xs ++ zs)
      = (match processRecords fz subjT tmr tdy uE cid st1 zs with
         | (st2, .error e) => (st2, .error e)
         | (st2, .ok outs2) => (st2, .ok (outs ++ outs2))) := by
  intro xs
  induction xs with
  | nil =>
      intro st st1 outs zs h
      rw [processRecords_nil] at h
      rw [Prod.mk.injEq] at h
      obtain ⟨h1, h2⟩ := h
      rw [Except.ok.injEq] at h2
      subst h1
      subst h2
      rw [List.nil_append]
      cases hq : processRecords fz subjT tmr tdy uE cid st zs with
      | mk st2 res2 =>
          cases res2 with
          | error e => rfl
          | ok outs2 => simp
  | cons b rest ihx =>
      intro st st1 outs zs h
      rw [List.cons_append]
      rw [processRecords_cons] at h
      rw [processRecords_cons]
      by_cases hh : has_homework b = true
      · simp only [hh, Bool.not_true, Bool.false_eq_true, if_false] at h ⊢
        cases hbc : buildAndCreate fz subjT tmr tdy uE cid st b with
        | error e =>
            rw [hbc] at h
            rw [Prod.mk.injEq] at h
            exact Except.noConfusion h.2
        | ok sr =>
            obtain ⟨stA, rA⟩ := sr
            simp only [hbc] at h ⊢
            cases hrec : processRecords fz subjT tmr tdy uE cid stA rest with
            | mk st2 res2 =>
                rw [hrec] at h
                cases res2 with
                | error e =>
                    rw [Prod.mk.injEq] at h
                    exact Except.noConfusion h.2
                | ok outs2 =>
                    rw [Prod.mk.injEq] at h
                    obtain ⟨h1, h2⟩ := h
                    rw [Except.ok.injEq] at h2
                    subst h1
                    subst h2
                    rw [ihx stA st2 outs2 zs hrec]
                    cases hq : processRecords fz subjT tmr tdy uE cid st2 zs with
                    | mk st3 res3 =>
                        cases res3 with
                        | error e => rfl
                        | ok outs3 => simp
      · rw [Bool.not_eq_true] at hh
        simp only [hh, Bool.not_false, if_true] at h ⊢
        exact ihx st st1 outs zs h

/-- Claim C4 (confirmed): importing the same extraction output twice for
the same child is idempotent — if the first run of the record loop
succeeds, the second run over the resulting store leaves the store
exactly unchanged, succeeds, and reports `duplicate` for every record
(as many outcomes as the first run); moreover, when the initial store
has at most one task per lookup key, each retained block ends with
exactly one persisted task for its resolved key. -/
theorem C4_import_idempotence :
    ∀ fz subjT tmr tdy u cid st0 blocks st1 outs,
    storeWF st0 →
    processRecords fz subjT tmr tdy (.ok u) cid st0 blocks = (st1, .ok outs) →
    runStore (processRecords fz subjT tmr tdy (.ok u) cid st1 blocks) = st1
    ∧ runOk (processRecords fz subjT tmr tdy (.ok u) cid st1 blocks) = true
    ∧ runOutcomes (processRecords fz subjT tmr tdy (.ok u) cid st1 blocks)
        = List.replicate outs.length "duplicate"
    ∧ (keyUnique st0 →
        ∀ b ∈ blocks, has_homework b = true →
        ∀ sid d, get_subject_id_by_name subjT (normalize_subject fz b.name 70) = .ok sid →
          b.date = some d → (d == "") = false →
          countKey st1 (resolveChildId u cid) sid d (some (trim_description b.descr)) = 1) := by
  intro fz subjT tmr tdy u cid st0 blocks st1 outs hwf h
  obtain ⟨hwf1, hgrow, hku, hset, hlen⟩ :=
    run_establishes fz subjT tmr tdy u cid blocks st0 st1 outs hwf h
  obtain ⟨outs2, hrec, hlen2, hdup⟩ :=
    run_duplicates fz subjT tmr tdy u cid blocks st1 hset
  refine ⟨?_, ?_, ?_, ?_⟩
  · rw [hrec]
    rfl
  · rw [hrec]
    rfl
  · unfold runOutcomes
    rw [hrec]
    have hl : (outs2.map (fun x => x.status)).length = outs.length := by
      rw [List.length_map, hlen2, hlen]
    rw [← hl]
    apply List.eq_replicate_length.2
    intro s hs
    obtain ⟨o, ho, hos⟩ := List.mem_map.1 hs
    rw [← hos]
    exact hdup o ho
  · intro hk0 b hb hhb sid d hres hdate hdne
    obtain ⟨sid', d', t, hres', hdate', hdne', hfind, _⟩ := hset b hb hhb
    have hsid : sid' = sid := by
      rw [hres'] at hres
      injection hres
    have hdd : d' = d := by
      rw [hdate'] at hdate
      injection hdate
    rw [hsid, hdd] at hfind
    have hku1 := hku hk0
    have hmem : t ∈ st1.tasks.filter (taskKeyMatches (resolveChildId u cid) sid d
        (some (trim_description b.descr))) := by
      rw [List.mem_filter]
      exact ⟨List.mem_of_find?_eq_some hfind, List.find?_some hfind⟩
    have hge : 1 ≤ countKey st1 (resolveChildId u cid) sid d
        (some (trim_description b.descr)) := by
      unfold countKey
      exact List.length_pos.2 (List.ne_nil_of_mem hmem)
    exact Nat.le_antisymm (hku1 _ _ _ _) hge

/-- Witness for C4: re-importing a concrete one-block extraction output
over the store produced by its first import yields exactly one
`duplicate` outcome. -/
theorem C4_witness :
    runOutcomes (processRecords fzFloor exSubjects "tmr" "2025-09-30" (.ok exAdmin) (some 3)
        mathStore1 [blockMath])
      = List.replicate 1 "duplicate" :=
  (C4_import_idempotence fzFloor exSubjects "tmr" "2025-09-30" exAdmin (some 3) emptyStore
    [blockMath] mathStore1 [⟨"created", mathTask1⟩]
    (by refine ⟨?_, ?_⟩ <;> simp [emptyStore]) rfl).2.2.1

/-- Claim C7, amended (no per-record isolation exists): a record whose
subject cannot be resolved makes the record loop raise the not-found
error for the whole job — records after the failing one are not
processed and no partial result list is returned, while the tasks
committed by the records before it are retained in the store. -/
theorem C7_amended :
    ∀ fz subjT tmr tdy uE cid st xs b rest st1 outs e,
    processRecords fz subjT tmr tdy uE cid st xs = (st1, .ok outs) →
    has_homework b = true →
    get_subject_id_by_name subjT (normalize_subject fz b.name 70) = .error e →
    processRecords fz subjT tmr tdy uE cid st (xs ++ b :: rest) = (st1, .error e) := by
  intro fz subjT tmr tdy uE cid st xs b rest st1 outs e h hh hres
  rw [processRecords_ok_then fz subjT tmr tdy uE cid xs st st1 outs (b :: rest) h]
  rw [processRecords_cons_err fz subjT tmr tdy uE cid st1 b rest e hh hres]

/-- Witness for the amended C7: with a resolvable record followed by an
unresolvable one, the run keeps the first record's committed task and
aborts with the not-found error. -/
theorem C7_amended_witness :
    processRecords fzFloor exSubjects "tmr" "2025-09-30" (.ok exAdmin) (some 3) emptyStore
        ([blockMath] ++ [blockPhys])
      = (mathStore1, .error (.httpNotFound "физика")) :=
  C7_amended fzFloor exSubjects "tmr" "2025-09-30" (.ok exAdmin) (some 3) emptyStore
    [blockMath] blockPhys [] mathStore1 [⟨"created", mathTask1⟩] (.httpNotFound "физика")
    rfl (by decide) rfl


end Schelper
